import Mathlib

/-!
# gbsim cport transport: registry, framing, dispatch and the receive loop

A shallow embedding of `cport.c` of the Greybus simulator.

* Memory is modelled at byte level: a buffer is a `List Nat` of byte values,
  and the fields of `struct gb_operation_msg_hdr` are read and written at
  their byte offsets.
* The global registry `info.cports` (a `TAILQ`) is a list in queue order.
* The uplink `to_ap` and the downlink `from_ap` are explicit environments:
  the uplink records every `write` and answers it from a result stream, the
  downlink is the sequence of results of the blocking `read` calls.
* The protocol handlers (`gpio_handler`, ...) live outside `cport.c`; they
  are a parameter of the dispatch functions and may change the buffers, the
  registry and the uplink in any way.
* `gbsim_error` output is kept as a list of messages; `gbsim_debug` and
  `gbsim_dump` output (and `get_protocol_operation`, which only feeds it)
  has no effect on any modelled state and is left out.
-/

namespace Gbsim

/-! ## Constants -/

/-- `ES1_MSG_SIZE`, the size of each static message buffer. -/
def ES1_MSG_SIZE : Nat := 2 * 1024

/-- Modelled from the spec: `OP_RESPONSE` is declared in `gbsim.h`, which is
not among the sources; the spec gives bit 7 of `type` as the response flag. -/
def OP_RESPONSE : Nat := 0x80

/-- `EINVAL` of `errno.h`. -/
def EINVAL : Int := 22

/-! ## The operation header

Modelled from the spec: `struct gb_operation_msg_hdr` is declared in a header
that is not among the sources.  The spec gives the layout
`size:u16, operation_id:u16, type:u8, result:u8, reserved:2 bytes`,
eight bytes in all. -/

/-- `sizeof(struct gb_operation_msg_hdr)`. -/
def sizeof_hdr : Nat := 8

/-- Byte offset of `size`. -/
def off_size : Nat := 0
/-- Byte offset of `operation_id`. -/
def off_operation_id : Nat := 2
/-- Byte offset of `type`. -/
def off_type : Nat := 4
/-- Byte offset of `result`. -/
def off_result : Nat := 5
/-- Byte offset of `pad[0]`; `pad[1]` follows it. -/
def off_pad : Nat := 6

/-- Conversion of a value to `uint8_t`. -/
def u8 (v : Nat) : Nat := v % 256

/-- Conversion of a value to `uint16_t`. -/
def u16 (v : Nat) : Nat := v % 65536

/-- Load of one byte; a byte outside the modelled buffer reads as zero. -/
def load8 (buf : List Nat) (off : Nat) : Nat := buf.getD off 0

/-- Store of one byte. -/
def store8 (buf : List Nat) (off : Nat) (v : Nat) : List Nat := buf.set off (u8 v)

/-- Load of a 16-bit field in the byte order of the host
(`be = true` for a big-endian host). -/
def load16 (be : Bool) (buf : List Nat) (off : Nat) : Nat :=
  if be then load8 buf off * 256 + load8 buf (off + 1)
  else load8 buf off + load8 buf (off + 1) * 256

/-- Store of a 16-bit field in the byte order of the host. -/
def store16 (be : Bool) (buf : List Nat) (off : Nat) (v : Nat) : List Nat :=
  if be then store8 (store8 buf off (u16 v / 256)) (off + 1) (u16 v)
  else store8 (store8 buf off (u16 v)) (off + 1) (u16 v / 256)

/-- Exchange of the two bytes of a 16-bit value. -/
def bswap16 (v : Nat) : Nat := (u16 v % 256) * 256 + u16 v / 256

/-- `htole16`: host byte order to little-endian. -/
def htole16 (be : Bool) (v : Nat) : Nat := if be then bswap16 v else u16 v

/-- `le16toh`: little-endian to host byte order. -/
def le16toh (be : Bool) (v : Nat) : Nat := if be then bswap16 v else u16 v

/-- The header field `size` as the host loads it (a raw `__le16`). -/
def hdr_size (be : Bool) (buf : List Nat) : Nat := load16 be buf off_size
/-- The header field `operation_id` as the host loads it. -/
def hdr_operation_id (be : Bool) (buf : List Nat) : Nat := load16 be buf off_operation_id
/-- The header field `type`. -/
def hdr_type (buf : List Nat) : Nat := load8 buf off_type
/-- The header field `result`. -/
def hdr_result (buf : List Nat) : Nat := load8 buf off_result
/-- The header field `pad[i]`. -/
def hdr_pad (buf : List Nat) (i : Nat) : Nat := load8 buf (off_pad + i)

/-- The two bytes at `off` read as a little-endian 16-bit number,
whatever the host is. -/
def read_le16 (buf : List Nat) (off : Nat) : Nat :=
  load8 buf off + 256 * load8 buf (off + 1)

/-! ## The uplink -/

/-- One `write(to_ap, buf, count)`: the count asked for and the bytes of the
buffer that it covers. -/
structure write_call where
  count : Nat
  bytes : List Nat
deriving DecidableEq, Repr

/-- The uplink endpoint `to_ap`: `ret n` is what the `n`-th `write` on it
returns, `written` the calls made so far, oldest first. -/
structure uplink where
  ret : Nat → Int
  written : List write_call

/-- The system call `write(to_ap, buf, count)`. -/
def write (to_ap : uplink) (buf : List Nat) (count : Nat) : Int × uplink :=
  (to_ap.ret to_ap.written.length,
   { to_ap with written := to_ap.written ++ [⟨count, buf.take count⟩] })

/-- Conversion of an `ssize_t` to `int` (the return type of the send
functions). -/
def to_int (v : Int) : Int := (v + 2147483648) % 4294967296 - 2147483648

/-! ## Sending -/

/-- What a send function leaves behind: its return value, the message buffer
`op` and the uplink. -/
structure send_result where
  ret : Int
  op : List Nat
  to_ap : uplink

/-- The header stores of `send_msg_to_ap` (lines 152 to 159). -/
def stamp_header (be : Bool) (op : List Nat)
    (hd_cport_id message_size id type result : Nat) : List Nat :=
  let op := store16 be op off_size (htole16 be message_size)
  let op := store16 be op off_operation_id id
  let op := store8 op off_type type
  let op := store8 op off_result result
  let op := store8 op off_pad (hd_cport_id &&& 0xff)
  let op := store8 op (off_pad + 1) ((hd_cport_id >>> 8) &&& 0xff)
  op

/-- `send_msg_to_ap`. -/
def send_msg_to_ap (be : Bool) (to_ap : uplink) (op : List Nat)
    (hd_cport_id message_size id type result : Nat) : send_result :=
  let op := stamp_header be op hd_cport_id message_size id type result
  let (nbytes, to_ap) := write to_ap op message_size
  if nbytes < 0 then
    { ret := to_int nbytes, op := op, to_ap := to_ap }
  else
    { ret := 0, op := op, to_ap := to_ap }

/-- `send_response`; `oph` is the buffer that holds the inbound header. -/
def send_response (be : Bool) (to_ap : uplink) (op : List Nat)
    (hd_cport_id message_size : Nat) (oph : List Nat) (result : Nat) : send_result :=
  send_msg_to_ap be to_ap op hd_cport_id message_size (hdr_operation_id be oph)
    (u8 (hdr_type oph ||| OP_RESPONSE)) result

/-- `send_request`. -/
def send_request (be : Bool) (to_ap : uplink) (op : List Nat)
    (hd_cport_id message_size id type : Nat) : send_result :=
  send_msg_to_ap be to_ap op hd_cport_id message_size id type 0

/-! ## The cport registry -/

/-- A `struct gbsim_cport`.  `node` is the identity of the `malloc`ed record:
the number of records allocated before it.  It stands for the pointer, so that
two records with equal fields are still two records. -/
structure gbsim_cport where
  node : Nat
  id : Nat
  hd_cport_id : Nat
  protocol : Int
deriving DecidableEq, Repr

/-- A message printed by `gbsim_error`. -/
inductive error_msg where
  | short_message
  | unknown_cport (hd_cport_id : Nat)
  | handler_not_found (cport_id : Nat)
  | receive_error (rsize : Int)
deriving DecidableEq, Repr

/-- The global state that `cport.c` works on: the queue `info.cports` in
queue order, the number of records allocated so far, the counter behind
`reset_hd_cport_id`, the uplink and the error output. -/
structure gbsim where
  cports : List gbsim_cport
  allocated : Nat
  hd_cport_id_counter : Nat
  to_ap : uplink
  errors : List error_msg

/-- `cport_find` on the queue: the `TAILQ_FOREACH` scan from the head. -/
def cport_scan (cport_id : Nat) : List gbsim_cport → Option gbsim_cport
  | [] => none
  | cport :: rest =>
    if cport.hd_cport_id = cport_id then some cport else cport_scan cport_id rest

/-- `cport_find`. -/
def cport_find (st : gbsim) (cport_id : Nat) : Option gbsim_cport :=
  cport_scan cport_id st.cports

/-- `allocate_cport`; `malloc` is taken to succeed. -/
def allocate_cport (st : gbsim) (cport_id hd_cport_id : Nat) (protocol_id : Int) : gbsim :=
  let cport : gbsim_cport :=
    { node := st.allocated, id := cport_id, hd_cport_id := hd_cport_id,
      protocol := protocol_id }
  { st with cports := st.cports ++ [cport], allocated := st.allocated + 1 }

/-- `free_cport`: `TAILQ_REMOVE` of the record. -/
def free_cport (st : gbsim) (cport : gbsim_cport) : gbsim :=
  { st with cports := st.cports.erase cport }

/-- One `TAILQ_FOREACH` pass of `free_cports`: the record at which the pass
reaches `free_cport`, skipping the records of `GB_SVC_CPORT_ID`. -/
def free_cports_pass (svc_cport_id : Nat) : List gbsim_cport → Option gbsim_cport
  | [] => none
  | cport :: rest =>
    if cport.hd_cport_id = svc_cport_id then free_cports_pass svc_cport_id rest
    else some cport

/-- The `again:` loop of `free_cports`: pass over the queue, free the first
record that is not the SVC one, start again; stop when a pass frees nothing. -/
def free_cports_again (svc_cport_id : Nat) (st : gbsim) : gbsim :=
  match hpass : free_cports_pass svc_cport_id st.cports with
  | none => st
  | some cport => free_cports_again svc_cport_id (free_cport st cport)
termination_by st.cports.length
decreasing_by
  have mem : ∀ (l : List gbsim_cport) (c : gbsim_cport),
      free_cports_pass svc_cport_id l = some c → c ∈ l := by
    intro l
    induction l with
    | nil => intro c hc; simp [free_cports_pass] at hc
    | cons a t ih =>
      intro c hc
      unfold free_cports_pass at hc
      split at hc
      · exact List.mem_cons_of_mem _ (ih c hc)
      · cases hc; exact List.mem_cons_self _ _
  have hm := mem st.cports cport hpass
  simp only [free_cport]
  rw [List.length_erase_of_mem hm]
  have : 0 < st.cports.length := List.length_pos_of_mem hm
  omega

/-- Modelled from the spec: `reset_hd_cport_id` is defined outside `cport.c`.
The spec says that the host-id allocation counter used for future assignments
is reset; `first_hd_cport_id` is the value it is reset to. -/
def reset_hd_cport_id (first_hd_cport_id : Nat) (st : gbsim) : gbsim :=
  { st with hd_cport_id_counter := first_hd_cport_id }

/-- `free_cports`; `svc_cport_id` is the constant `GB_SVC_CPORT_ID`, which is
declared outside the sources. -/
def free_cports (svc_cport_id first_hd_cport_id : Nat) (st : gbsim) : gbsim :=
  reset_hd_cport_id first_hd_cport_id (free_cports_again svc_cport_id st)

/-- A call of the registry interface. -/
inductive registry_op where
  | allocate (cport_id hd_cport_id : Nat) (protocol_id : Int)
  | free (cport : gbsim_cport)
deriving DecidableEq, Repr

/-- One registry call. -/
def registry_step (st : gbsim) : registry_op → gbsim
  | .allocate cport_id hd_cport_id protocol_id =>
    allocate_cport st cport_id hd_cport_id protocol_id
  | .free cport => free_cport st cport

/-- A sequence of registry calls, first call first. -/
def registry_run (st : gbsim) (ops : List registry_op) : gbsim :=
  ops.foldl registry_step st

/-- The uplink before any write. -/
def fresh_uplink (ret : Nat → Int) : uplink := { ret := ret, written := [] }

/-- The state after `TAILQ_INIT(&info.cports)`: an empty registry. -/
def gbsim_init (ret : Nat → Int) : gbsim :=
  { cports := [], allocated := 0, hd_cport_id_counter := 0,
    to_ap := fresh_uplink ret, errors := [] }


/-! ## Dispatch -/

/-- Modelled from the spec: the `GREYBUS_PROTOCOL_*` constants are declared in
a header that is not among the sources; the spec lists the thirteen protocol
kinds.  Their values are the fields of this record. -/
structure greybus_protocols where
  GREYBUS_PROTOCOL_CONTROL : Int
  GREYBUS_PROTOCOL_SVC : Int
  GREYBUS_PROTOCOL_GPIO : Int
  GREYBUS_PROTOCOL_I2C : Int
  GREYBUS_PROTOCOL_UART : Int
  GREYBUS_PROTOCOL_PWM : Int
  GREYBUS_PROTOCOL_SDIO : Int
  GREYBUS_PROTOCOL_LIGHTS : Int
  GREYBUS_PROTOCOL_I2S_MGMT : Int
  GREYBUS_PROTOCOL_I2S_RECEIVER : Int
  GREYBUS_PROTOCOL_I2S_TRANSMITTER : Int
  GREYBUS_PROTOCOL_LOOPBACK : Int
  GREYBUS_PROTOCOL_FIRMWARE : Int

/-- The protocol handler functions that `cport_recv_handler` can call. -/
inductive handler_fn where
  | control_handler
  | svc_handler
  | gpio_handler
  | i2c_handler
  | uart_handler
  | pwm_handler
  | sdio_handler
  | lights_handler
  | i2s_mgmt_handler
  | i2s_data_handler
  | loopback_handler
  | firmware_handler
deriving DecidableEq, Repr

/-- One call of a protocol handler: the function and its six arguments, the
buffers with the content they have when the call is made. -/
structure handler_call where
  fn : handler_fn
  cport_id : Nat
  hd_cport_id : Nat
  rbuf : List Nat
  rsize : Nat
  tbuf : List Nat
  tsize : Nat
deriving DecidableEq, Repr

/-- What a protocol handler leaves behind: its status, the two buffers and the
global state. -/
structure handler_result where
  ret : Int
  rbuf : List Nat
  tbuf : List Nat
  st : gbsim

/-- The protocol handlers, which are defined outside `cport.c`: any function
of the call and the global state. -/
abbrev handlers := handler_call → gbsim → handler_result

/-- Result of `cport_recv_handler`: the returned status, the buffers, the
global state and the handler calls that were made. -/
structure dispatch_result where
  ret : Int
  rbuf : List Nat
  tbuf : List Nat
  st : gbsim
  calls : List handler_call

/-- A `return xxx_handler(cport->id, cport->hd_cport_id, rbuf, rsize, tbuf,
tsize);` of `cport_recv_handler`. -/
def call_handler (H : handlers) (fn : handler_fn) (cport : gbsim_cport) (st : gbsim)
    (rbuf : List Nat) (rsize : Nat) (tbuf : List Nat) (tsize : Nat) : dispatch_result :=
  let call : handler_call :=
    { fn := fn, cport_id := cport.id, hd_cport_id := cport.hd_cport_id,
      rbuf := rbuf, rsize := rsize, tbuf := tbuf, tsize := tsize }
  let r := H call st
  { ret := r.ret, rbuf := r.rbuf, tbuf := r.tbuf, st := r.st, calls := [call] }

/-- `cport_recv_handler`: the `switch` on `cport->protocol`. -/
def cport_recv_handler (P : greybus_protocols) (H : handlers) (cport : gbsim_cport)
    (st : gbsim) (rbuf : List Nat) (rsize : Nat) (tbuf : List Nat) (tsize : Nat) :
    dispatch_result :=
  if cport.protocol = P.GREYBUS_PROTOCOL_CONTROL then
    call_handler H .control_handler cport st rbuf rsize tbuf tsize
  else if cport.protocol = P.GREYBUS_PROTOCOL_SVC then
    call_handler H .svc_handler cport st rbuf rsize tbuf tsize
  else if cport.protocol = P.GREYBUS_PROTOCOL_GPIO then
    call_handler H .gpio_handler cport st rbuf rsize tbuf tsize
  else if cport.protocol = P.GREYBUS_PROTOCOL_I2C then
    call_handler H .i2c_handler cport st rbuf rsize tbuf tsize
  else if cport.protocol = P.GREYBUS_PROTOCOL_UART then
    call_handler H .uart_handler cport st rbuf rsize tbuf tsize
  else if cport.protocol = P.GREYBUS_PROTOCOL_PWM then
    call_handler H .pwm_handler cport st rbuf rsize tbuf tsize
  else if cport.protocol = P.GREYBUS_PROTOCOL_SDIO then
    call_handler H .sdio_handler cport st rbuf rsize tbuf tsize
  else if cport.protocol = P.GREYBUS_PROTOCOL_LIGHTS then
    call_handler H .lights_handler cport st rbuf rsize tbuf tsize
  else if cport.protocol = P.GREYBUS_PROTOCOL_I2S_MGMT then
    call_handler H .i2s_mgmt_handler cport st rbuf rsize tbuf tsize
  else if cport.protocol = P.GREYBUS_PROTOCOL_I2S_RECEIVER then
    call_handler H .i2s_data_handler cport st rbuf rsize tbuf tsize
  else if cport.protocol = P.GREYBUS_PROTOCOL_I2S_TRANSMITTER then
    call_handler H .i2s_data_handler cport st rbuf rsize tbuf tsize
  else if cport.protocol = P.GREYBUS_PROTOCOL_LOOPBACK then
    call_handler H .loopback_handler cport st rbuf rsize tbuf tsize
  else if cport.protocol = P.GREYBUS_PROTOCOL_FIRMWARE then
    call_handler H .firmware_handler cport st rbuf rsize tbuf tsize
  else
    { ret := -EINVAL, rbuf := rbuf, tbuf := tbuf,
      st := { st with errors := st.errors ++ [.handler_not_found cport.id] },
      calls := [] }

/-- The routing id that `recv_handler` takes from the pad bytes (line 245). -/
def recv_hd_cport_id (rbuf : List Nat) : Nat :=
  u16 (hdr_pad rbuf 1 <<< 8 ||| hdr_pad rbuf 0)

/-- Result of `recv_handler` (a `void` function): the buffers, the global
state and the handler calls that were made. -/
structure recv_result where
  rbuf : List Nat
  tbuf : List Nat
  st : gbsim
  calls : List handler_call

/-- `recv_handler`. -/
def recv_handler (P : greybus_protocols) (H : handlers) (st : gbsim)
    (rbuf : List Nat) (rsize : Nat) (tbuf : List Nat) (tsize : Nat) : recv_result :=
  if rsize < sizeof_hdr then
    { rbuf := rbuf, tbuf := tbuf,
      st := { st with errors := st.errors ++ [.short_message] }, calls := [] }
  else
    let hd_cport_id := recv_hd_cport_id rbuf
    match cport_find st hd_cport_id with
    | none =>
      { rbuf := rbuf, tbuf := tbuf,
        st := { st with errors := st.errors ++ [.unknown_cport hd_cport_id] },
        calls := [] }
    | some cport =>
      let rbuf := store8 rbuf off_pad 0
      let rbuf := store8 rbuf (off_pad + 1) 0
      let r := cport_recv_handler P H cport st rbuf rsize tbuf tsize
      { rbuf := r.rbuf, tbuf := r.tbuf, st := r.st, calls := r.calls }

/-! ## The receive loop -/

/-- What one blocking `read(from_ap, ...)` meets: a failure (with its `errno`)
or an arriving frame. -/
inductive read_event where
  | error (errno : Nat)
  | frame (bytes : List Nat)
deriving DecidableEq, Repr

/-- The system call `read(from_ap, buf, count)`: `-1` on failure; otherwise
the number of bytes delivered, at most `count`, which overwrite the start of
the buffer. -/
def read (ev : read_event) (buf : List Nat) (count : Nat) : Int × List Nat :=
  match ev with
  | .error _ => (-1, buf)
  | .frame bytes =>
    let n := min bytes.length count
    (n, bytes.take n ++ buf.drop n)

/-- The state of the receive thread: the global state, the two static buffers,
the handler calls made so far (oldest first) and whether `recv_thread` has
returned. -/
structure thread_state where
  st : gbsim
  cport_rbuf : List Nat
  cport_tbuf : List Nat
  calls : List handler_call
  returned : Bool

/-- A static message buffer after `memset(buf, 0, sizeof(buf))`, which is also
its content at program start. -/
def zero_buf : List Nat := List.replicate ES1_MSG_SIZE 0

/-- One iteration of the `while (1)` of `recv_thread`, for one `read`. -/
def recv_iteration (P : greybus_protocols) (H : handlers) (ev : read_event)
    (ts : thread_state) : thread_state :=
  let (rsize, cport_rbuf) := read ev ts.cport_rbuf ES1_MSG_SIZE
  if rsize < 0 then
    { ts with
      st := { ts.st with errors := ts.st.errors ++ [.receive_error rsize] },
      cport_rbuf := cport_rbuf, returned := true }
  else
    let r := recv_handler P H ts.st cport_rbuf rsize.toNat ts.cport_tbuf ES1_MSG_SIZE
    { st := r.st,
      cport_rbuf := zero_buf,
      cport_tbuf := zero_buf,
      calls := ts.calls ++ r.calls,
      returned := false }

/-- `recv_thread` on the sequence of results that its `read` calls meet.  The
loop ends when a `read` fails; when the sequence is used up the thread is
blocked in `read`. -/
def recv_thread (P : greybus_protocols) (H : handlers) :
    List read_event → thread_state → thread_state
  | [], ts => ts
  | ev :: rest, ts =>
    let ts := recv_iteration P H ev ts
    if ts.returned then ts else recv_thread P H rest ts

/-- The receive thread before its first `read`: the static buffers are
zero-initialised. -/
def thread_init (st : gbsim) : thread_state :=
  { st := st, cport_rbuf := zero_buf, cport_tbuf := zero_buf, calls := [],
    returned := false }

/-! ## Reading aids for the statements -/

/-- The handler function that the `switch` of `cport_recv_handler` selects for
a protocol id, `none` for the `default:` case. -/
def handler_for (P : greybus_protocols) (protocol : Int) : Option handler_fn :=
  if protocol = P.GREYBUS_PROTOCOL_CONTROL then some .control_handler
  else if protocol = P.GREYBUS_PROTOCOL_SVC then some .svc_handler
  else if protocol = P.GREYBUS_PROTOCOL_GPIO then some .gpio_handler
  else if protocol = P.GREYBUS_PROTOCOL_I2C then some .i2c_handler
  else if protocol = P.GREYBUS_PROTOCOL_UART then some .uart_handler
  else if protocol = P.GREYBUS_PROTOCOL_PWM then some .pwm_handler
  else if protocol = P.GREYBUS_PROTOCOL_SDIO then some .sdio_handler
  else if protocol = P.GREYBUS_PROTOCOL_LIGHTS then some .lights_handler
  else if protocol = P.GREYBUS_PROTOCOL_I2S_MGMT then some .i2s_mgmt_handler
  else if protocol = P.GREYBUS_PROTOCOL_I2S_RECEIVER then some .i2s_data_handler
  else if protocol = P.GREYBUS_PROTOCOL_I2S_TRANSMITTER then some .i2s_data_handler
  else if protocol = P.GREYBUS_PROTOCOL_LOOPBACK then some .loopback_handler
  else if protocol = P.GREYBUS_PROTOCOL_FIRMWARE then some .firmware_handler
  else none

/-- Protocol ids as in the Greybus protocol list, used in the examples. -/
def greybus_ids : greybus_protocols :=
  { GREYBUS_PROTOCOL_CONTROL := 0x00
    GREYBUS_PROTOCOL_SVC := 0x14
    GREYBUS_PROTOCOL_GPIO := 0x02
    GREYBUS_PROTOCOL_I2C := 0x03
    GREYBUS_PROTOCOL_UART := 0x04
    GREYBUS_PROTOCOL_PWM := 0x09
    GREYBUS_PROTOCOL_SDIO := 0x07
    GREYBUS_PROTOCOL_LIGHTS := 0x0f
    GREYBUS_PROTOCOL_I2S_MGMT := 0x0a
    GREYBUS_PROTOCOL_I2S_RECEIVER := 0x12
    GREYBUS_PROTOCOL_I2S_TRANSMITTER := 0x13
    GREYBUS_PROTOCOL_LOOPBACK := 0x11
    GREYBUS_PROTOCOL_FIRMWARE := 0x15 }

/-- Handlers that do nothing and report success, used in the examples. -/
def idle_handlers : handlers :=
  fun call st => { ret := 0, rbuf := call.rbuf, tbuf := call.tbuf, st := st }

/-- An uplink on which every write of the examples succeeds with 8 bytes. -/
def example_uplink : uplink := fresh_uplink (fun _ => 8)

/-- The registry of the examples: local id 1, routing id `0x10`, GPIO. -/
def example_gbsim : gbsim :=
  allocate_cport (gbsim_init (fun _ => 8)) 1 0x10 0x02

/-- The lookup as the spec's testable property words it: among the live
entries with the routing id, the one allocated last. -/
def spec_find_most_recent (st : gbsim) (cport_id : Nat) : Option gbsim_cport :=
  (st.cports.filter (fun c => c.hd_cport_id = cport_id)).foldl
    (fun best c =>
      match best with
      | none => some c
      | some b => if b.node ≤ c.node then some c else some b)
    none

/-- The registry of the counterexamples: two live entries allocated with the
same routing id 0 (the value of `GB_SVC_CPORT_ID` in Greybus). -/
def duplicate_gbsim : gbsim :=
  registry_run (gbsim_init (fun _ => 8)) [.allocate 1 0 0x14, .allocate 2 0 0x14]

/-- The thirteen protocol ids that the `switch` of `cport_recv_handler` has a
`case` for. -/
def known_protocols (P : greybus_protocols) : List Int :=
  [P.GREYBUS_PROTOCOL_CONTROL, P.GREYBUS_PROTOCOL_SVC, P.GREYBUS_PROTOCOL_GPIO,
   P.GREYBUS_PROTOCOL_I2C, P.GREYBUS_PROTOCOL_UART, P.GREYBUS_PROTOCOL_PWM,
   P.GREYBUS_PROTOCOL_SDIO, P.GREYBUS_PROTOCOL_LIGHTS, P.GREYBUS_PROTOCOL_I2S_MGMT,
   P.GREYBUS_PROTOCOL_I2S_RECEIVER, P.GREYBUS_PROTOCOL_I2S_TRANSMITTER,
   P.GREYBUS_PROTOCOL_LOOPBACK, P.GREYBUS_PROTOCOL_FIRMWARE]

/-- The iterations of the receive loop for a run of arriving frames, one after
the other. -/
def recv_frames (P : greybus_protocols) (H : handlers) (frames : List (List Nat))
    (ts : thread_state) : thread_state :=
  frames.foldl (fun ts bytes => recv_iteration P H (.frame bytes) ts) ts

/-- Handlers that scribble on both buffers and report a failure, used in the
examples. -/
def failing_handlers : handlers :=
  fun call st =>
    { ret := -EINVAL, rbuf := call.rbuf.map (fun _ => 0xff),
      tbuf := call.tbuf.map (fun _ => 0xff), st := st }

/-- The number of `allocate_cport` calls in a sequence of registry calls. -/
def allocations : List registry_op → Nat
  | [] => 0
  | .allocate _ _ _ :: rest => allocations rest + 1
  | .free _ :: rest => allocations rest

/-- The live entries after a sequence of registry calls, in the claim's words:
the records that an `allocate_cport` call of the sequence created and that no
later `free_cport` call of the sequence released, in the order of their
allocation.  `n` is the number of records allocated before the sequence. -/
def live_entries (n : Nat) : List registry_op → List gbsim_cport
  | [] => []
  | .allocate cport_id hd_cport_id protocol_id :: rest =>
    if registry_op.free
        { node := n, id := cport_id, hd_cport_id := hd_cport_id, protocol := protocol_id }
        ∈ rest then
      live_entries (n + 1) rest
    else
      { node := n, id := cport_id, hd_cport_id := hd_cport_id, protocol := protocol_id }
        :: live_entries (n + 1) rest
  | .free _ :: rest => live_entries n rest

/-- A handler call that shows nothing of an earlier frame: the transmit buffer
is the zeroed static buffer, and the receive buffer, of full size, is zero from
the received size on. -/
def no_residue (call : handler_call) : Prop :=
  call.tbuf = zero_buf ∧ call.tsize = ES1_MSG_SIZE ∧
  call.rbuf.length = ES1_MSG_SIZE ∧ call.rsize ≤ ES1_MSG_SIZE ∧
  ∀ off, call.rsize ≤ off → load8 call.rbuf off = 0

/-- The queue holds the records in the order of their allocation, and every
record in it was allocated before now. -/
def registry_inv (st : gbsim) : Prop :=
  st.cports.Pairwise (fun a b => a.node < b.node) ∧ ∀ c ∈ st.cports, c.node < st.allocated

/-! ## Bytes and bit operations -/

theorem length_store8 (buf : List Nat) (off v : Nat) :
    (store8 buf off v).length = buf.length := by
  simp [store8]

theorem load8_store8_same (buf : List Nat) (off v : Nat) (h : off < buf.length) :
    load8 (store8 buf off v) off = u8 v := by
  simp [load8, store8, List.getD_eq_getElem?_getD, List.getElem?_set, h]

theorem load8_store8_other (buf : List Nat) (off off' v : Nat) (h : off ≠ off') :
    load8 (store8 buf off v) off' = load8 buf off' := by
  simp [load8, store8, List.getD_eq_getElem?_getD, List.getElem?_set, h]

theorem load8_take (buf : List Nat) (n off : Nat) (h : off < n) :
    load8 (buf.take n) off = load8 buf off := by
  simp [load8, List.getD_eq_getElem?_getD, List.getElem?_take, h]

theorem and_ff (v : Nat) : v &&& 0xff = v % 256 :=
  Nat.and_pow_two_sub_one_eq_mod v 8

theorem shl8_or (hi lo : Nat) (h : lo < 256) : hi <<< 8 ||| lo = hi * 256 + lo := by
  rw [Nat.shiftLeft_eq, Nat.mul_comm]
  exact (Nat.mul_add_lt_is_or (i := 8) h hi).symm

theorem or_response_low (t : Nat) : (t ||| OP_RESPONSE) % 128 = t % 128 := by
  apply Nat.eq_of_testBit_eq
  intro i
  have e1 : OP_RESPONSE = 2 ^ 7 := by norm_num [OP_RESPONSE]
  have e2 : (128 : Nat) = 2 ^ 7 := by norm_num
  rw [e1, e2, Nat.testBit_mod_two_pow, Nat.testBit_mod_two_pow, Nat.testBit_lor,
    Nat.testBit_two_pow]
  by_cases h : i < 7
  · have : ¬ (7 = i) := by omega
    simp [h, this]
  · simp [h]

theorem or_response_bit (t : Nat) : (t ||| OP_RESPONSE).testBit 7 = true := by
  have e1 : OP_RESPONSE = 2 ^ 7 := by norm_num [OP_RESPONSE]
  rw [Nat.testBit_lor, e1, Nat.testBit_two_pow]
  simp

theorem or_response_lt (t : Nat) (h : t < 256) : t ||| OP_RESPONSE < 256 := by
  have : t ||| OP_RESPONSE < 2 ^ 8 :=
    Nat.or_lt_two_pow (by simpa using h) (by norm_num [OP_RESPONSE])
  simpa using this

/-! ## The header that `send_msg_to_ap` stamps -/

theorem send_msg_to_ap_op (be : Bool) (to_ap : uplink) (op : List Nat)
    (hd_cport_id message_size id type result : Nat) :
    (send_msg_to_ap be to_ap op hd_cport_id message_size id type result).op
      = stamp_header be op hd_cport_id message_size id type result := by
  unfold send_msg_to_ap
  simp only [write]
  split <;> rfl

theorem length_stamp_header (be : Bool) (op : List Nat)
    (hd_cport_id message_size id type result : Nat) :
    (stamp_header be op hd_cport_id message_size id type result).length = op.length := by
  cases be <;> simp [stamp_header, store16, length_store8]

theorem stamp_header_pad0 (be : Bool) (op : List Nat)
    (hd_cport_id message_size id type result : Nat) (hop : sizeof_hdr ≤ op.length) :
    hdr_pad (stamp_header be op hd_cport_id message_size id type result) 0
      = hd_cport_id % 256 := by
  have h6 : 6 < op.length := by simp only [sizeof_hdr] at hop; omega
  cases be <;>
    simp [stamp_header, store16, hdr_pad, off_pad, off_size, off_operation_id, off_type,
      off_result, load8_store8_same, load8_store8_other, length_store8, h6, and_ff, u8]

theorem stamp_header_pad1 (be : Bool) (op : List Nat)
    (hd_cport_id message_size id type result : Nat) (hop : sizeof_hdr ≤ op.length) :
    hdr_pad (stamp_header be op hd_cport_id message_size id type result) 1
      = hd_cport_id / 256 % 256 := by
  have h7 : 7 < op.length := by simp only [sizeof_hdr] at hop; omega
  cases be <;>
    simp [stamp_header, store16, hdr_pad, off_pad, off_size, off_operation_id, off_type,
      off_result, load8_store8_same, load8_store8_other, length_store8, h7, and_ff, u8,
      Nat.shiftRight_eq_div_pow]

theorem stamp_header_type (be : Bool) (op : List Nat)
    (hd_cport_id message_size id type result : Nat) (hop : sizeof_hdr ≤ op.length) :
    hdr_type (stamp_header be op hd_cport_id message_size id type result) = type % 256 := by
  have h4 : 4 < op.length := by simp only [sizeof_hdr] at hop; omega
  cases be <;>
    simp [stamp_header, store16, hdr_type, off_pad, off_size, off_operation_id, off_type,
      off_result, load8_store8_same, load8_store8_other, length_store8, h4, u8]

theorem stamp_header_operation_id (be : Bool) (op : List Nat)
    (hd_cport_id message_size id type result : Nat) (hop : sizeof_hdr ≤ op.length) :
    hdr_operation_id be (stamp_header be op hd_cport_id message_size id type result)
      = id % 65536 := by
  have h2 : 2 < op.length := by simp only [sizeof_hdr] at hop; omega
  have h3 : 3 < op.length := by simp only [sizeof_hdr] at hop; omega
  cases be <;>
    simp [stamp_header, store16, hdr_operation_id, load16, off_pad, off_size,
      off_operation_id, off_type, off_result, load8_store8_same, load8_store8_other,
      length_store8, h2, h3, u8, u16] <;> omega

theorem bswap16_bytes (v : Nat) :
    u8 (u16 (bswap16 v) / 256) = v % 256 ∧ u8 (u16 (bswap16 v)) = v / 256 % 256 := by
  simp only [u8, u16, bswap16]
  generalize hx : v % 65536 = x
  have hlt : x < 65536 := by rw [← hx]; exact Nat.mod_lt _ (by norm_num)
  have hv : v % 256 = x % 256 := by omega
  have hw : v / 256 % 256 = x / 256 := by omega
  rw [hv, hw]
  have hal : x % 256 < 256 := Nat.mod_lt _ (by norm_num)
  have hbl : x / 256 < 256 := by omega
  generalize x % 256 = a at *
  generalize x / 256 = b at *
  constructor <;> omega

theorem stamp_header_size_bytes (be : Bool) (op : List Nat)
    (hd_cport_id message_size id type result : Nat) (hop : sizeof_hdr ≤ op.length) :
    load8 (stamp_header be op hd_cport_id message_size id type result) 0
      = message_size % 256 ∧
    load8 (stamp_header be op hd_cport_id message_size id type result) 1
      = message_size / 256 % 256 := by
  have h0 : 0 < op.length := by simp only [sizeof_hdr] at hop; omega
  have h1 : 1 < op.length := by simp only [sizeof_hdr] at hop; omega
  clear hop
  cases be
  · constructor <;>
      simp [stamp_header, store16, htole16, off_pad, off_size,
        off_operation_id, off_type, off_result, load8_store8_same, load8_store8_other,
        length_store8, h0, h1, u8, u16] <;>
      omega
  · have hb := bswap16_bytes message_size
    constructor <;>
      simp [stamp_header, store16, htole16, off_pad, off_size,
        off_operation_id, off_type, off_result, load8_store8_same, load8_store8_other,
        length_store8, h0, h1, hb.1, hb.2]

theorem stamp_header_size (be : Bool) (op : List Nat)
    (hd_cport_id message_size id type result : Nat) (hop : sizeof_hdr ≤ op.length) :
    read_le16 (stamp_header be op hd_cport_id message_size id type result) off_size
      = message_size % 65536 := by
  obtain ⟨h0, h1⟩ := stamp_header_size_bytes be op hd_cport_id message_size id type result hop
  simp only [read_le16, off_size, Nat.zero_add, h0, h1]
  omega

theorem stamp_header_hdr_size (be : Bool) (op : List Nat)
    (hd_cport_id message_size id type result : Nat) (hop : sizeof_hdr ≤ op.length) :
    le16toh be (hdr_size be (stamp_header be op hd_cport_id message_size id type result))
      = message_size % 65536 := by
  obtain ⟨h0, h1⟩ := stamp_header_size_bytes be op hd_cport_id message_size id type result hop
  cases be
  · simp only [le16toh, hdr_size, load16, off_size, Nat.zero_add, h0, h1, u16]
    simp
    omega
  · simp only [le16toh, hdr_size, load16, off_size, Nat.zero_add, h0, h1, u16, bswap16,
      if_true]
    clear h0 h1 hop
    have ha : message_size % 256 < 256 := Nat.mod_lt _ (by norm_num)
    have hb : message_size / 256 % 256 < 256 := Nat.mod_lt _ (by norm_num)
    have hm : message_size % 65536 = message_size / 256 % 256 * 256 + message_size % 256 := by
      omega
    rw [hm]
    clear hm
    generalize message_size % 256 = a at *
    generalize message_size / 256 % 256 = b at *
    have e1 : (a * 256 + b) % 65536 = a * 256 + b := Nat.mod_eq_of_lt (by omega)
    have e2 : (a * 256 + b) % 256 = b := by omega
    have e3 : (a * 256 + b) / 256 = a := by omega
    rw [e1, e2, e3]

theorem recv_hd_cport_id_eq (rbuf : List Nat) (h : hdr_pad rbuf 0 < 256) :
    recv_hd_cport_id rbuf = (hdr_pad rbuf 1 * 256 + hdr_pad rbuf 0) % 65536 := by
  simp [recv_hd_cport_id, u16, shl8_or _ _ h]

/-! ## Claims -/

/-- C1: for a 16-bit routing id `H` (and a 16-bit operation id, an 8-bit
type), the header that `send_msg_to_ap` stamps has `pad[0] = H & 0xff` and
`pad[1] = (H >> 8) & 0xff`, the decoding of `recv_handler`
(`pad[1] << 8 | pad[0]`) gives back exactly `H`, both on the message buffer and
on the bytes handed to the uplink, and the `operation_id` field, the `type`
field and with it bit 7 of `type` are the values passed in. -/
theorem send_recv_hd_cport_id_round_trip (be : Bool) (to_ap : uplink) (op : List Nat)
    (H message_size id type result : Nat)
    (hop : sizeof_hdr ≤ op.length) (hH : H < 65536) (hid : id < 65536)
    (htype : type < 256) :
    hdr_pad (send_msg_to_ap be to_ap op H message_size id type result).op 0 = H &&& 0xff ∧
    hdr_pad (send_msg_to_ap be to_ap op H message_size id type result).op 1
      = (H >>> 8) &&& 0xff ∧
    recv_hd_cport_id (send_msg_to_ap be to_ap op H message_size id type result).op = H ∧
    (sizeof_hdr ≤ message_size →
      ∀ w ∈ (send_msg_to_ap be to_ap op H message_size id type result).to_ap.written.getLast?,
        recv_hd_cport_id w.bytes = H) ∧
    hdr_operation_id be (send_msg_to_ap be to_ap op H message_size id type result).op = id ∧
    hdr_type (send_msg_to_ap be to_ap op H message_size id type result).op = type ∧
    (hdr_type (send_msg_to_ap be to_ap op H message_size id type result).op).testBit 7
      = type.testBit 7 := by
  have p0 := stamp_header_pad0 be op H message_size id type result hop
  have p1 := stamp_header_pad1 be op H message_size id type result hop
  have hdec : ∀ buf : List Nat, hdr_pad buf 0 = H % 256 → hdr_pad buf 1 = H / 256 % 256 →
      recv_hd_cport_id buf = H := by
    intro buf e0 e1
    rw [recv_hd_cport_id_eq buf (by rw [e0]; omega), e0, e1]
    omega
  have ht : hdr_type (stamp_header be op H message_size id type result) = type := by
    rw [stamp_header_type be op H message_size id type result hop]; omega
  rw [send_msg_to_ap_op]
  refine ⟨?_, ?_, hdec _ p0 p1, ?_, ?_, ht, by rw [ht]⟩
  · rw [p0, and_ff]
  · rw [p1, and_ff, Nat.shiftRight_eq_div_pow]
  · intro hm w hw
    have hwb : w.bytes = (stamp_header be op H message_size id type result).take message_size := by
      unfold send_msg_to_ap at hw
      simp only [write] at hw
      split at hw <;> simp at hw <;> rw [← hw]
    simp only [sizeof_hdr] at hm
    apply hdec
    · rw [hwb, hdr_pad, load8_take _ _ _ (by simp [off_pad]; omega)]; exact p0
    · rw [hwb, hdr_pad, load8_take _ _ _ (by simp [off_pad]; omega)]; exact p1
  · rw [stamp_header_operation_id be op H message_size id type result hop]; omega

/-- C1 at a concrete call: routing id `0x1234`, operation id 7, type `0x81`,
on a little-endian host. -/
theorem send_recv_hd_cport_id_round_trip_witness :
    recv_hd_cport_id
      (send_msg_to_ap false (fresh_uplink (fun _ => 8)) (List.replicate 8 0)
        0x1234 8 7 0x81 0).op = 0x1234 :=
  (send_recv_hd_cport_id_round_trip false (fresh_uplink (fun _ => 8)) (List.replicate 8 0)
    0x1234 8 7 0x81 0 (by decide) (by decide) (by decide) (by decide)).2.2.1

/-! ## Dispatch facts -/

theorem cport_recv_handler_eq (P : greybus_protocols) (H : handlers) (cport : gbsim_cport)
    (st : gbsim) (rbuf : List Nat) (rsize : Nat) (tbuf : List Nat) (tsize : Nat) :
    cport_recv_handler P H cport st rbuf rsize tbuf tsize =
      match handler_for P cport.protocol with
      | some fn => call_handler H fn cport st rbuf rsize tbuf tsize
      | none =>
        { ret := -EINVAL, rbuf := rbuf, tbuf := tbuf,
          st := { st with errors := st.errors ++ [.handler_not_found cport.id] },
          calls := [] } := by
  unfold cport_recv_handler handler_for
  by_cases h : cport.protocol = P.GREYBUS_PROTOCOL_CONTROL
  · rw [if_pos h, if_pos h]
  rw [if_neg h, if_neg h]
  clear h
  by_cases h : cport.protocol = P.GREYBUS_PROTOCOL_SVC
  · rw [if_pos h, if_pos h]
  rw [if_neg h, if_neg h]
  clear h
  by_cases h : cport.protocol = P.GREYBUS_PROTOCOL_GPIO
  · rw [if_pos h, if_pos h]
  rw [if_neg h, if_neg h]
  clear h
  by_cases h : cport.protocol = P.GREYBUS_PROTOCOL_I2C
  · rw [if_pos h, if_pos h]
  rw [if_neg h, if_neg h]
  clear h
  by_cases h : cport.protocol = P.GREYBUS_PROTOCOL_UART
  · rw [if_pos h, if_pos h]
  rw [if_neg h, if_neg h]
  clear h
  by_cases h : cport.protocol = P.GREYBUS_PROTOCOL_PWM
  · rw [if_pos h, if_pos h]
  rw [if_neg h, if_neg h]
  clear h
  by_cases h : cport.protocol = P.GREYBUS_PROTOCOL_SDIO
  · rw [if_pos h, if_pos h]
  rw [if_neg h, if_neg h]
  clear h
  by_cases h : cport.protocol = P.GREYBUS_PROTOCOL_LIGHTS
  · rw [if_pos h, if_pos h]
  rw [if_neg h, if_neg h]
  clear h
  by_cases h : cport.protocol = P.GREYBUS_PROTOCOL_I2S_MGMT
  · rw [if_pos h, if_pos h]
  rw [if_neg h, if_neg h]
  clear h
  by_cases h : cport.protocol = P.GREYBUS_PROTOCOL_I2S_RECEIVER
  · rw [if_pos h, if_pos h]
  rw [if_neg h, if_neg h]
  clear h
  by_cases h : cport.protocol = P.GREYBUS_PROTOCOL_I2S_TRANSMITTER
  · rw [if_pos h, if_pos h]
  rw [if_neg h, if_neg h]
  clear h
  by_cases h : cport.protocol = P.GREYBUS_PROTOCOL_LOOPBACK
  · rw [if_pos h, if_pos h]
  rw [if_neg h, if_neg h]
  clear h
  by_cases h : cport.protocol = P.GREYBUS_PROTOCOL_FIRMWARE
  · rw [if_pos h, if_pos h]
  rw [if_neg h, if_neg h]

theorem recv_handler_found (P : greybus_protocols) (H : handlers) (st : gbsim)
    (rbuf : List Nat) (rsize : Nat) (tbuf : List Nat) (tsize : Nat) (cport : gbsim_cport)
    (hsize : sizeof_hdr ≤ rsize)
    (hfind : cport_find st (recv_hd_cport_id rbuf) = some cport) :
    recv_handler P H st rbuf rsize tbuf tsize =
      { rbuf := (cport_recv_handler P H cport st
          (store8 (store8 rbuf off_pad 0) (off_pad + 1) 0) rsize tbuf tsize).rbuf,
        tbuf := (cport_recv_handler P H cport st
          (store8 (store8 rbuf off_pad 0) (off_pad + 1) 0) rsize tbuf tsize).tbuf,
        st := (cport_recv_handler P H cport st
          (store8 (store8 rbuf off_pad 0) (off_pad + 1) 0) rsize tbuf tsize).st,
        calls := (cport_recv_handler P H cport st
          (store8 (store8 rbuf off_pad 0) (off_pad + 1) 0) rsize tbuf tsize).calls } := by
  unfold recv_handler
  rw [if_neg (by omega)]
  simp only [hfind]

theorem cport_recv_handler_calls (P : greybus_protocols) (H : handlers) (cport : gbsim_cport)
    (st : gbsim) (rbuf : List Nat) (rsize : Nat) (tbuf : List Nat) (tsize : Nat) :
    (cport_recv_handler P H cport st rbuf rsize tbuf tsize).calls =
      match handler_for P cport.protocol with
      | some fn =>
        [{ fn := fn, cport_id := cport.id, hd_cport_id := cport.hd_cport_id,
           rbuf := rbuf, rsize := rsize, tbuf := tbuf, tsize := tsize }]
      | none => [] := by
  rw [cport_recv_handler_eq]
  cases handler_for P cport.protocol <;> rfl

/-- C2: when a frame of at least header size decodes to a registered cport,
every handler call that `recv_handler` makes gets a receive buffer whose two
pad bytes are zero, whatever they were on arrival; the other bytes and the
size are those received; and for a protocol with a handler the call is made. -/
theorem recv_handler_clears_pad (P : greybus_protocols) (H : handlers) (st : gbsim)
    (rbuf : List Nat) (rsize : Nat) (tbuf : List Nat) (tsize : Nat) (cport : gbsim_cport)
    (hsize : sizeof_hdr ≤ rsize) (hbuf : rsize ≤ rbuf.length)
    (hfind : cport_find st (recv_hd_cport_id rbuf) = some cport) :
    (∀ call ∈ (recv_handler P H st rbuf rsize tbuf tsize).calls,
      hdr_pad call.rbuf 0 = 0 ∧ hdr_pad call.rbuf 1 = 0 ∧
      (∀ off, off ≠ off_pad → off ≠ off_pad + 1 → load8 call.rbuf off = load8 rbuf off) ∧
      call.rsize = rsize) ∧
    (∀ fn, handler_for P cport.protocol = some fn →
      ∃ call, (recv_handler P H st rbuf rsize tbuf tsize).calls = [call] ∧ call.fn = fn) := by
  rw [recv_handler_found P H st rbuf rsize tbuf tsize cport hsize hfind]
  simp only [cport_recv_handler_calls]
  have h7 : 7 < rbuf.length := by simp only [sizeof_hdr] at hsize; omega
  constructor
  · intro call hcall
    cases hfn : handler_for P cport.protocol with
    | none => simp [hfn] at hcall
    | some fn =>
      simp only [hfn, List.mem_singleton] at hcall
      subst hcall
      refine ⟨?_, ?_, ?_, rfl⟩
      · simp only [hdr_pad, off_pad]
        rw [load8_store8_other _ _ _ _ (by decide), load8_store8_same _ _ _ (by omega)]
        rfl
      · simp only [hdr_pad, off_pad]
        rw [load8_store8_same _ _ _ (by rw [length_store8]; omega)]
        rfl
      · intro off h6 h7
        rw [load8_store8_other _ _ _ _ (Ne.symm h7), load8_store8_other _ _ _ _ (Ne.symm h6)]
  · intro fn hfn
    simp [hfn]

/-- C2 at a concrete frame: pad bytes `0x10, 0x00` on arrival, registered GPIO
cport `0x10`. -/
theorem recv_handler_clears_pad_witness :
    ∃ call : handler_call,
      (recv_handler greybus_ids idle_handlers example_gbsim
        [8, 0, 7, 0, 1, 0, 0x10, 0] 8 (List.replicate 8 0) 8).calls = [call] ∧
      call.fn = .gpio_handler ∧ hdr_pad call.rbuf 0 = 0 ∧ hdr_pad call.rbuf 1 = 0 :=
  let h := recv_handler_clears_pad greybus_ids idle_handlers example_gbsim
    [8, 0, 7, 0, 1, 0, 0x10, 0] 8 (List.replicate 8 0) 8
    { node := 0, id := 1, hd_cport_id := 0x10, protocol := 0x02 }
    (by decide) (by decide) (by decide)
  (h.2 .gpio_handler (by decide)).elim fun call hc =>
    have hmem : call ∈ (recv_handler greybus_ids idle_handlers example_gbsim
        [8, 0, 7, 0, 1, 0, 0x10, 0] 8 (List.replicate 8 0) 8).calls := by
      rw [hc.1]; exact List.mem_singleton_self _
    ⟨call, hc.1, hc.2, (h.1 call hmem).1, (h.1 call hmem).2.1⟩

/-! ## The receive loop on an arriving frame -/

theorem recv_iteration_frame (P : greybus_protocols) (H : handlers) (bytes : List Nat)
    (ts : thread_state) :
    recv_iteration P H (.frame bytes) ts =
      { st := (recv_handler P H ts.st
            (bytes.take (min bytes.length ES1_MSG_SIZE) ++
              ts.cport_rbuf.drop (min bytes.length ES1_MSG_SIZE))
            (min bytes.length ES1_MSG_SIZE) ts.cport_tbuf ES1_MSG_SIZE).st,
        cport_rbuf := zero_buf,
        cport_tbuf := zero_buf,
        calls := ts.calls ++ (recv_handler P H ts.st
            (bytes.take (min bytes.length ES1_MSG_SIZE) ++
              ts.cport_rbuf.drop (min bytes.length ES1_MSG_SIZE))
            (min bytes.length ES1_MSG_SIZE) ts.cport_tbuf ES1_MSG_SIZE).calls,
        returned := false } := by
  unfold recv_iteration
  simp only [read]
  rw [if_neg (by omega)]
  simp only [Int.toNat_ofNat]

theorem recv_thread_frame (P : greybus_protocols) (H : handlers) (bytes : List Nat)
    (rest : List read_event) (ts : thread_state) :
    recv_thread P H (.frame bytes :: rest) ts =
      recv_thread P H rest (recv_iteration P H (.frame bytes) ts) := by
  rw [recv_thread]
  simp only [recv_iteration_frame]
  rfl

theorem load8_read_frame (bytes buf : List Nat) (off : Nat)
    (h : off < min bytes.length ES1_MSG_SIZE) :
    load8 (bytes.take (min bytes.length ES1_MSG_SIZE) ++
      buf.drop (min bytes.length ES1_MSG_SIZE)) off = load8 bytes off := by
  have h1 : off < bytes.length := by omega
  have h2 : off < (bytes.take (min bytes.length ES1_MSG_SIZE)).length := by
    rw [List.length_take]; omega
  simp only [load8, List.getD_eq_getElem?_getD]
  rw [List.getElem?_append_left h2, List.getElem?_take]
  simp [h]

theorem recv_hd_cport_id_read_frame (bytes buf : List Nat) (h : sizeof_hdr ≤ bytes.length) :
    recv_hd_cport_id (bytes.take (min bytes.length ES1_MSG_SIZE) ++
      buf.drop (min bytes.length ES1_MSG_SIZE)) = recv_hd_cport_id bytes := by
  have h8 : 8 ≤ min bytes.length ES1_MSG_SIZE := by
    simp only [sizeof_hdr] at h
    simp only [ES1_MSG_SIZE]
    omega
  simp only [recv_hd_cport_id, hdr_pad, off_pad]
  rw [load8_read_frame _ _ _ (by omega), load8_read_frame _ _ _ (by omega)]

/-- C7: a frame whose size is below the header size is rejected as a short
message.  `recv_handler` makes no handler call, writes nothing to the uplink,
leaves the registry and both buffers as they are and reports the short
message; the receive loop then clears the buffers and goes on with the next
`read`, with no handler call added. -/
theorem short_message_rejected (P : greybus_protocols) (H : handlers) (st : gbsim)
    (rbuf : List Nat) (rsize : Nat) (tbuf : List Nat) (tsize : Nat)
    (bytes : List Nat) (rest : List read_event) (ts : thread_state)
    (hsize : rsize < sizeof_hdr) (hbytes : bytes.length < sizeof_hdr) :
    (recv_handler P H st rbuf rsize tbuf tsize).calls = [] ∧
    (recv_handler P H st rbuf rsize tbuf tsize).st.to_ap.written = st.to_ap.written ∧
    (recv_handler P H st rbuf rsize tbuf tsize).st.cports = st.cports ∧
    (recv_handler P H st rbuf rsize tbuf tsize).rbuf = rbuf ∧
    (recv_handler P H st rbuf rsize tbuf tsize).tbuf = tbuf ∧
    (recv_handler P H st rbuf rsize tbuf tsize).st.errors = st.errors ++ [.short_message] ∧
    recv_thread P H (.frame bytes :: rest) ts =
      recv_thread P H rest
        { st := { ts.st with errors := ts.st.errors ++ [.short_message] },
          cport_rbuf := zero_buf, cport_tbuf := zero_buf, calls := ts.calls,
          returned := false } := by
  have hshort : ∀ (st : gbsim) (rbuf : List Nat) (rsize : Nat) (tbuf : List Nat) (tsize : Nat),
      rsize < sizeof_hdr →
      recv_handler P H st rbuf rsize tbuf tsize =
        { rbuf := rbuf, tbuf := tbuf,
          st := { st with errors := st.errors ++ [.short_message] }, calls := [] } := by
    intro st rbuf rsize tbuf tsize h
    unfold recv_handler
    rw [if_pos h]
  refine ⟨?_, ?_, ?_, ?_, ?_, ?_, ?_⟩
  · rw [hshort _ _ _ _ _ hsize]
  · rw [hshort _ _ _ _ _ hsize]
  · rw [hshort _ _ _ _ _ hsize]
  · rw [hshort _ _ _ _ _ hsize]
  · rw [hshort _ _ _ _ _ hsize]
  · rw [hshort _ _ _ _ _ hsize]
  · rw [recv_thread_frame, recv_iteration_frame,
      hshort _ _ _ _ _ (lt_of_le_of_lt (Nat.min_le_left _ _) hbytes)]
    simp only [List.append_nil]

/-- C7 at a frame of size 3, followed by a frame for the registered GPIO
cport: the short frame adds no handler call and the next frame is handled. -/
theorem short_message_rejected_witness :
    (recv_handler greybus_ids idle_handlers example_gbsim [3, 0, 1] 3 [] 0).calls = [] ∧
    recv_thread greybus_ids idle_handlers
        [.frame [3, 0, 1], .frame [8, 0, 7, 0, 1, 0, 0x10, 0]] (thread_init example_gbsim) =
      recv_thread greybus_ids idle_handlers [.frame [8, 0, 7, 0, 1, 0, 0x10, 0]]
        { st := { example_gbsim with errors := example_gbsim.errors ++ [.short_message] },
          cport_rbuf := zero_buf, cport_tbuf := zero_buf,
          calls := (thread_init example_gbsim).calls, returned := false } :=
  let h := short_message_rejected greybus_ids idle_handlers example_gbsim [3, 0, 1] 3 [] 0
    [3, 0, 1] [.frame [8, 0, 7, 0, 1, 0, 0x10, 0]] (thread_init example_gbsim)
    (by decide) (by decide)
  ⟨h.1, h.2.2.2.2.2.2⟩

theorem recv_handler_unknown (P : greybus_protocols) (H : handlers) (st : gbsim)
    (rbuf : List Nat) (rsize : Nat) (tbuf : List Nat) (tsize : Nat)
    (hsize : sizeof_hdr ≤ rsize) (hfind : cport_find st (recv_hd_cport_id rbuf) = none) :
    recv_handler P H st rbuf rsize tbuf tsize =
      { rbuf := rbuf, tbuf := tbuf,
        st := { st with errors := st.errors ++ [.unknown_cport (recv_hd_cport_id rbuf)] },
        calls := [] } := by
  unfold recv_handler
  rw [if_neg (by omega)]
  simp only [hfind]

/-- C8: a frame of at least header size whose pad bytes decode to a routing id
that no registry entry has is dropped.  `recv_handler` makes no handler call,
leaves the registry, the uplink and both buffers as they are and reports the
unknown cport; and when the next frame is for a registered cport whose
protocol has a handler, the receive loop calls that handler for it, with the
cport's ids and a receive buffer with zeroed pad bytes. -/
theorem unknown_cport_dropped (P : greybus_protocols) (H : handlers) (st : gbsim)
    (rbuf : List Nat) (rsize : Nat) (tbuf : List Nat) (tsize : Nat)
    (u v : List Nat) (rest : List read_event) (ts : thread_state)
    (cport : gbsim_cport) (fn : handler_fn)
    (hsize : sizeof_hdr ≤ rsize) (hfind : cport_find st (recv_hd_cport_id rbuf) = none)
    (hu : sizeof_hdr ≤ u.length) (hufind : cport_find ts.st (recv_hd_cport_id u) = none)
    (hv : sizeof_hdr ≤ v.length)
    (hvfind : cport_find ts.st (recv_hd_cport_id v) = some cport)
    (hfn : handler_for P cport.protocol = some fn) :
    (recv_handler P H st rbuf rsize tbuf tsize).calls = [] ∧
    (recv_handler P H st rbuf rsize tbuf tsize).st.cports = st.cports ∧
    (recv_handler P H st rbuf rsize tbuf tsize).st.to_ap.written = st.to_ap.written ∧
    (recv_handler P H st rbuf rsize tbuf tsize).rbuf = rbuf ∧
    (recv_handler P H st rbuf rsize tbuf tsize).tbuf = tbuf ∧
    (recv_handler P H st rbuf rsize tbuf tsize).st.errors
      = st.errors ++ [.unknown_cport (recv_hd_cport_id rbuf)] ∧
    ∃ call : handler_call,
      call.fn = fn ∧ call.cport_id = cport.id ∧ call.hd_cport_id = cport.hd_cport_id ∧
      call.rsize = min v.length ES1_MSG_SIZE ∧
      hdr_pad call.rbuf 0 = 0 ∧ hdr_pad call.rbuf 1 = 0 ∧
      (recv_thread P H [.frame u, .frame v] ts).calls = ts.calls ++ [call] ∧
      recv_thread P H (.frame u :: .frame v :: rest) ts =
        recv_thread P H rest
          { st := (H call { ts.st with
                errors := ts.st.errors ++ [.unknown_cport (recv_hd_cport_id u)] }).st,
            cport_rbuf := zero_buf, cport_tbuf := zero_buf,
            calls := ts.calls ++ [call], returned := false } := by
  have hdrop := recv_handler_unknown P H st rbuf rsize tbuf tsize hsize hfind
  refine ⟨by rw [hdrop], by rw [hdrop], by rw [hdrop], by rw [hdrop], by rw [hdrop],
    by rw [hdrop], ?_⟩
  have hn : ∀ w : List Nat, sizeof_hdr ≤ w.length →
      sizeof_hdr ≤ min w.length ES1_MSG_SIZE := by
    intro w hw
    simp only [sizeof_hdr] at hw ⊢
    simp only [ES1_MSG_SIZE]
    omega
  -- the first iteration: the frame for the unknown cport
  have hstep1 : recv_iteration P H (.frame u) ts =
      { st := { ts.st with
          errors := ts.st.errors ++ [.unknown_cport (recv_hd_cport_id u)] },
        cport_rbuf := zero_buf, cport_tbuf := zero_buf, calls := ts.calls,
        returned := false } := by
    rw [recv_iteration_frame,
      recv_handler_unknown P H ts.st _ _ _ _ (hn u hu)
        (by rw [recv_hd_cport_id_read_frame _ _ hu]; exact hufind),
      recv_hd_cport_id_read_frame _ _ hu]
    simp only [List.append_nil]
  -- the second iteration: the frame for the registered cport
  have hlen : sizeof_hdr ≤ (v.take (min v.length ES1_MSG_SIZE) ++
      zero_buf.drop (min v.length ES1_MSG_SIZE)).length := by
    have := hn v hv
    rw [List.length_append, List.length_take]
    omega
  simp only [sizeof_hdr] at hlen
  refine ⟨{ fn := fn, cport_id := cport.id, hd_cport_id := cport.hd_cport_id,
            rbuf := store8 (store8 (v.take (min v.length ES1_MSG_SIZE) ++
              zero_buf.drop (min v.length ES1_MSG_SIZE)) off_pad 0) (off_pad + 1) 0,
            rsize := min v.length ES1_MSG_SIZE, tbuf := zero_buf,
            tsize := ES1_MSG_SIZE }, rfl, rfl, rfl, rfl, ?_, ?_, ?_, ?_⟩
  · simp only [hdr_pad, off_pad]
    rw [load8_store8_other _ _ _ _ (by decide), load8_store8_same _ _ _ (by omega)]
    rfl
  · simp only [hdr_pad, off_pad]
    rw [load8_store8_same _ _ _ (by rw [length_store8]; omega)]
    rfl
  · rw [recv_thread_frame, hstep1, recv_thread_frame, recv_iteration_frame]
    simp only [recv_thread]
    rw [recv_handler_found P H _ _ _ _ _ cport (hn v hv)
      (by rw [recv_hd_cport_id_read_frame _ _ hv]; exact hvfind)]
    simp only [cport_recv_handler_calls, hfn]
  · rw [recv_thread_frame, hstep1, recv_thread_frame, recv_iteration_frame]
    rw [recv_handler_found P H _ _ _ _ _ cport (hn v hv)
      (by rw [recv_hd_cport_id_read_frame _ _ hv]; exact hvfind)]
    simp only [cport_recv_handler_calls, cport_recv_handler_eq, hfn]
    rfl

/-- C8 at routing id `0x99` on a registry that holds only cport `0x10`,
followed by a frame for cport `0x10`: one handler call, the GPIO one. -/
theorem unknown_cport_dropped_witness :
    (recv_handler greybus_ids idle_handlers (gbsim_init (fun _ => 8))
      [8, 0, 7, 0, 1, 0, 0x99, 0] 8 [] 0).calls = [] ∧
    ∃ call : handler_call, call.fn = .gpio_handler ∧
      (recv_thread greybus_ids idle_handlers
        [.frame [8, 0, 7, 0, 1, 0, 0x99, 0], .frame [8, 0, 9, 0, 1, 0, 0x10, 0]]
        (thread_init example_gbsim)).calls = (thread_init example_gbsim).calls ++ [call] :=
  let h := unknown_cport_dropped greybus_ids idle_handlers (gbsim_init (fun _ => 8))
    [8, 0, 7, 0, 1, 0, 0x99, 0] 8 [] 0
    [8, 0, 7, 0, 1, 0, 0x99, 0] [8, 0, 9, 0, 1, 0, 0x10, 0] [] (thread_init example_gbsim)
    { node := 0, id := 1, hd_cport_id := 0x10, protocol := 0x02 } .gpio_handler
    (by decide) (by decide) (by decide) (by decide) (by decide) (by decide) (by decide)
  ⟨h.1, h.2.2.2.2.2.2.elim fun call hc => ⟨call, hc.1, hc.2.2.2.2.2.2.1⟩⟩

/-! ## The registry -/

theorem registry_inv_init (ret : Nat → Int) : registry_inv (gbsim_init ret) := by
  simp [registry_inv, gbsim_init]

theorem registry_inv_allocate (st : gbsim) (cport_id hd_cport_id : Nat) (protocol_id : Int)
    (h : registry_inv st) : registry_inv (allocate_cport st cport_id hd_cport_id protocol_id) := by
  obtain ⟨hp, hlt⟩ := h
  constructor
  · simp only [allocate_cport]
    rw [List.pairwise_append]
    refine ⟨hp, List.pairwise_singleton _ _, ?_⟩
    intro a ha b hb
    rw [List.mem_singleton] at hb
    subst hb
    exact hlt a ha
  · intro c hc
    simp only [allocate_cport, List.mem_append, List.mem_singleton] at hc ⊢
    rcases hc with hc | hc
    · exact Nat.lt_succ_of_lt (hlt c hc)
    · subst hc; exact Nat.lt_succ_self _

theorem registry_inv_free (st : gbsim) (cport : gbsim_cport) (h : registry_inv st) :
    registry_inv (free_cport st cport) := by
  obtain ⟨hp, hlt⟩ := h
  constructor
  · exact hp.sublist (List.erase_sublist _ _)
  · intro c hc
    exact hlt c (List.mem_of_mem_erase hc)

theorem registry_inv_run (ops : List registry_op) :
    ∀ st : gbsim, registry_inv st → registry_inv (registry_run st ops) := by
  induction ops with
  | nil => intro st h; exact h
  | cons op rest ih =>
    intro st h
    simp only [registry_run, List.foldl_cons]
    apply ih
    cases op with
    | allocate a b c => exact registry_inv_allocate st a b c h
    | free c => exact registry_inv_free st c h

theorem cport_scan_none (cport_id : Nat) (l : List gbsim_cport) :
    cport_scan cport_id l = none ↔ ∀ c ∈ l, c.hd_cport_id ≠ cport_id := by
  induction l with
  | nil => simp [cport_scan]
  | cons a t ih =>
    unfold cport_scan
    by_cases h : a.hd_cport_id = cport_id
    · simp [h]
    · simp [h, ih]

theorem cport_scan_some (cport_id : Nat) (l : List gbsim_cport) (c : gbsim_cport)
    (hp : l.Pairwise (fun a b => a.node < b.node)) (h : cport_scan cport_id l = some c) :
    c ∈ l ∧ c.hd_cport_id = cport_id ∧
      ∀ d ∈ l, d.hd_cport_id = cport_id → c.node ≤ d.node := by
  induction l with
  | nil => simp [cport_scan] at h
  | cons a t ih =>
    rw [List.pairwise_cons] at hp
    unfold cport_scan at h
    by_cases ha : a.hd_cport_id = cport_id
    · rw [if_pos ha] at h
      cases h
      refine ⟨List.mem_cons_self _ _, ha, ?_⟩
      intro d hd _
      rcases List.mem_cons.mp hd with hd | hd
      · subst hd; exact le_refl _
      · exact le_of_lt (hp.1 d hd)
    · rw [if_neg ha] at h
      obtain ⟨h1, h2, h3⟩ := ih hp.2 h
      refine ⟨List.mem_cons_of_mem _ h1, h2, ?_⟩
      intro d hd hdh
      rcases List.mem_cons.mp hd with hd | hd
      · subst hd; exact absurd hdh ha
      · exact h3 d hd hdh

theorem cport_scan_append (cport_id : Nat) (l1 l2 : List gbsim_cport) :
    cport_scan cport_id (l1 ++ l2) =
      match cport_scan cport_id l1 with
      | some c => some c
      | none => cport_scan cport_id l2 := by
  induction l1 with
  | nil => simp [cport_scan]
  | cons a t ih =>
    simp only [List.cons_append, cport_scan]
    by_cases h : a.hd_cport_id = cport_id
    · simp [h]
    · simp [h, ih]

theorem cport_scan_eq_find (cport_id : Nat) (l : List gbsim_cport) :
    cport_scan cport_id l = l.find? (fun c => c.hd_cport_id = cport_id) := by
  induction l with
  | nil => rfl
  | cons a t ih =>
    unfold cport_scan
    by_cases h : a.hd_cport_id = cport_id
    · simp [h]
    · simp [h, ih]

/-- C3, as the spec words it, fails: after allocating two entries with the
same routing id, `cport_find` returns the one allocated first, while the most
recently allocated live entry with that id is the second one. -/
theorem cport_find_not_most_recent :
    cport_find duplicate_gbsim 0
      = some { node := 0, id := 1, hd_cport_id := 0, protocol := 0x14 } ∧
    spec_find_most_recent duplicate_gbsim 0
      = some { node := 1, id := 2, hd_cport_id := 0, protocol := 0x14 } ∧
    cport_find duplicate_gbsim 0 ≠ spec_find_most_recent duplicate_gbsim 0 := by
  decide

theorem registry_run_cports (ops : List registry_op) :
    ∀ st : gbsim, registry_inv st →
      (registry_run st ops).cports =
        st.cports.filter (fun c => registry_op.free c ∉ ops)
          ++ live_entries st.allocated ops := by
  induction ops with
  | nil => intro st _; simp [registry_run, live_entries]
  | cons op rest ih =>
    intro st hinv
    cases op with
    | allocate a h p =>
      have hstep := ih (allocate_cport st a h p) (registry_inv_allocate st a h p hinv)
      simp only [registry_run, List.foldl_cons, registry_step] at hstep ⊢
      rw [hstep]
      simp only [allocate_cport, List.filter_append, live_entries]
      by_cases hf : registry_op.free
          { node := st.allocated, id := a, hd_cport_id := h, protocol := p } ∈ rest
      · simp [hf]
      · simp [hf]
    | free d =>
      have hstep := ih (free_cport st d) (registry_inv_free st d hinv)
      simp only [registry_run, List.foldl_cons, registry_step] at hstep ⊢
      rw [hstep]
      have hnodup : st.cports.Nodup := hinv.1.imp (fun hlt heq => by
        rw [heq] at hlt; exact Nat.lt_irrefl _ hlt)
      simp only [free_cport, live_entries]
      rw [hnodup.erase_eq_filter d, List.filter_filter]
      congr 1
      apply List.filter_congr
      intro c _
      by_cases hcd : c = d
      · simp [hcd]
      · have : d ≠ c := fun e => hcd e.symm
        simp [hcd, this]

theorem mem_live_entries (ops : List registry_op) :
    ∀ (n : Nat) (c : gbsim_cport),
      c ∈ live_entries n ops ↔
        ∃ (pre post : List registry_op) (cport_id hd_cport_id : Nat) (protocol_id : Int),
          ops = pre ++ .allocate cport_id hd_cport_id protocol_id :: post ∧
          c = { node := n + allocations pre, id := cport_id, hd_cport_id := hd_cport_id,
                protocol := protocol_id } ∧
          registry_op.free c ∉ post := by
  induction ops with
  | nil =>
    intro n c
    simp [live_entries]
  | cons op rest ih =>
    intro n c
    cases op with
    | allocate a h p =>
      constructor
      · intro hc
        have hcases : (c = { node := n, id := a, hd_cport_id := h, protocol := p } ∧
            registry_op.free c ∉ rest) ∨ c ∈ live_entries (n + 1) rest := by
          simp only [live_entries] at hc
          split at hc
          · exact Or.inr hc
          · next hnf =>
            rcases List.mem_cons.mp hc with hc | hc
            · exact Or.inl ⟨hc, by rw [hc]; exact hnf⟩
            · exact Or.inr hc
        rcases hcases with ⟨hc, hnf⟩ | hc
        · exact ⟨[], rest, a, h, p, rfl, by simp [allocations, hc], hnf⟩
        · obtain ⟨pre, post, a', h', p', hops, hceq, hnf⟩ := (ih (n + 1) c).mp hc
          refine ⟨.allocate a h p :: pre, post, a', h', p', by rw [hops]; rfl, ?_, hnf⟩
          rw [hceq]
          simp only [allocations]
          congr 1
          omega
      · rintro ⟨pre, post, a', h', p', hops, hceq, hnf⟩
        cases pre with
        | nil =>
          simp only [List.nil_append, List.cons.injEq, registry_op.allocate.injEq] at hops
          obtain ⟨⟨ha, hh, hp⟩, hrest⟩ := hops
          subst ha hh hp hrest
          simp only [allocations, Nat.add_zero] at hceq
          simp only [live_entries]
          rw [← hceq, if_neg hnf]
          exact List.mem_cons_self _ _
        | cons x pre' =>
          simp only [List.cons_append, List.cons.injEq] at hops
          obtain ⟨hx, hrest⟩ := hops
          subst hx
          have hin : c ∈ live_entries (n + 1) rest := by
            apply (ih (n + 1) c).mpr
            refine ⟨pre', post, a', h', p', hrest, ?_, hnf⟩
            rw [hceq]
            simp only [allocations]
            congr 1
            omega
          simp only [live_entries]
          split
          · exact hin
          · exact List.mem_cons_of_mem _ hin
    | free d =>
      simp only [live_entries]
      rw [ih n c]
      constructor
      · rintro ⟨pre, post, a', h', p', hops, hceq, hnf⟩
        exact ⟨.free d :: pre, post, a', h', p', by rw [hops]; rfl,
          by simpa [allocations] using hceq, hnf⟩
      · rintro ⟨pre, post, a', h', p', hops, hceq, hnf⟩
        cases pre with
        | nil => simp at hops
        | cons x pre' =>
          simp only [List.cons_append, List.cons.injEq] at hops
          obtain ⟨hx, hrest⟩ := hops
          subst hx
          exact ⟨pre', post, a', h', p', hrest, by simpa [allocations] using hceq, hnf⟩

/-- C3, amended: after every sequence of `allocate_cport` and `free_cport`
calls from the empty registry, the registry holds exactly the live entries, in
the order of their allocation: the records that an `allocate_cport` call of
the sequence created (numbered by the allocations before it) and that no later
`free_cport` call released.  `cport_find` returns nothing exactly when no live
entry has the routing id, and otherwise returns a live entry with that id,
namely the one allocated earliest among them. -/
theorem cport_find_earliest (ret : Nat → Int) (ops : List registry_op) (cport_id : Nat) :
    (registry_run (gbsim_init ret) ops).cports = live_entries 0 ops ∧
    (∀ c : gbsim_cport, c ∈ live_entries 0 ops ↔
      ∃ (pre post : List registry_op) (id hd_cport_id : Nat) (protocol_id : Int),
        ops = pre ++ .allocate id hd_cport_id protocol_id :: post ∧
        c = { node := allocations pre, id := id, hd_cport_id := hd_cport_id,
              protocol := protocol_id } ∧
        registry_op.free c ∉ post) ∧
    (cport_find (registry_run (gbsim_init ret) ops) cport_id = none ↔
      ∀ c ∈ live_entries 0 ops, c.hd_cport_id ≠ cport_id) ∧
    (∀ c, cport_find (registry_run (gbsim_init ret) ops) cport_id = some c →
      c ∈ live_entries 0 ops ∧ c.hd_cport_id = cport_id ∧
      ∀ d ∈ live_entries 0 ops, d.hd_cport_id = cport_id → c.node ≤ d.node) := by
  have hinv := registry_inv_run ops (gbsim_init ret) (registry_inv_init ret)
  have hlive : (registry_run (gbsim_init ret) ops).cports = live_entries 0 ops := by
    rw [registry_run_cports ops (gbsim_init ret) (registry_inv_init ret)]
    simp [gbsim_init]
  refine ⟨hlive, ?_, ?_, ?_⟩
  · intro c
    rw [mem_live_entries ops 0 c]
    simp only [Nat.zero_add]
  · rw [← hlive]
    exact cport_scan_none _ _
  · intro c hc
    rw [← hlive]
    exact cport_scan_some _ _ c hinv.1 hc

/-- C3 (amended) on two allocations with routing id 5 followed by the release
of the first record: the second record is the only live entry, and the lookup
returns it. -/
theorem cport_find_earliest_witness :
    (registry_run (gbsim_init (fun _ => 8))
      [.allocate 1 5 0x02, .allocate 2 5 0x02,
       .free { node := 0, id := 1, hd_cport_id := 5, protocol := 0x02 }]).cports
      = [{ node := 1, id := 2, hd_cport_id := 5, protocol := 0x02 }] ∧
    cport_find (registry_run (gbsim_init (fun _ => 8))
      [.allocate 1 5 0x02, .allocate 2 5 0x02,
       .free { node := 0, id := 1, hd_cport_id := 5, protocol := 0x02 }]) 5
      = some { node := 1, id := 2, hd_cport_id := 5, protocol := 0x02 } :=
  ⟨(cport_find_earliest (fun _ => 8)
      [.allocate 1 5 0x02, .allocate 2 5 0x02,
       .free { node := 0, id := 1, hd_cport_id := 5, protocol := 0x02 }] 5).1.trans
      (by decide),
    by decide⟩

/-- C4: `allocate_cport` accepts a routing id that is already in use.  Two
allocations with the same routing id append two distinct entries with that id,
in that order, so the registry holds two more entries with the id than before;
`cport_find` then returns the first match in queue order: the entry that an
earlier lookup found, or, when there was none, the first of the two. -/
theorem allocate_cport_duplicate (st : gbsim) (id1 id2 hd_cport_id : Nat) (p1 p2 : Int) :
    (allocate_cport (allocate_cport st id1 hd_cport_id p1) id2 hd_cport_id p2).cports =
      st.cports ++
        [{ node := st.allocated, id := id1, hd_cport_id := hd_cport_id, protocol := p1 },
         { node := st.allocated + 1, id := id2, hd_cport_id := hd_cport_id, protocol := p2 }] ∧
    ((allocate_cport (allocate_cport st id1 hd_cport_id p1) id2 hd_cport_id p2).cports.filter
        (fun c => c.hd_cport_id = hd_cport_id)).length =
      (st.cports.filter (fun c => c.hd_cport_id = hd_cport_id)).length + 2 ∧
    cport_find (allocate_cport (allocate_cport st id1 hd_cport_id p1) id2 hd_cport_id p2)
        hd_cport_id =
      (allocate_cport (allocate_cport st id1 hd_cport_id p1) id2 hd_cport_id p2).cports.find?
        (fun c => c.hd_cport_id = hd_cport_id) ∧
    cport_find (allocate_cport (allocate_cport st id1 hd_cport_id p1) id2 hd_cport_id p2)
        hd_cport_id =
      match cport_find st hd_cport_id with
      | some c => some c
      | none =>
        some { node := st.allocated, id := id1, hd_cport_id := hd_cport_id, protocol := p1 } := by
  have hc : (allocate_cport (allocate_cport st id1 hd_cport_id p1) id2 hd_cport_id p2).cports =
      st.cports ++
        [{ node := st.allocated, id := id1, hd_cport_id := hd_cport_id, protocol := p1 },
         { node := st.allocated + 1, id := id2, hd_cport_id := hd_cport_id, protocol := p2 }] := by
    simp [allocate_cport]
  refine ⟨hc, ?_, ?_, ?_⟩
  · rw [hc]
    simp [List.filter_append, List.filter_cons]
  · exact cport_scan_eq_find _ _
  · simp only [cport_find]
    rw [hc, cport_scan_append]
    cases cport_scan hd_cport_id st.cports with
    | some c => rfl
    | none => simp [cport_scan]

/-! ## Bulk removal -/

theorem free_cports_pass_none (svc_cport_id : Nat) (l : List gbsim_cport)
    (h : free_cports_pass svc_cport_id l = none) :
    l.filter (fun c => c.hd_cport_id = svc_cport_id) = l := by
  induction l with
  | nil => rfl
  | cons a t ih =>
    unfold free_cports_pass at h
    by_cases ha : a.hd_cport_id = svc_cport_id
    · rw [if_pos ha] at h
      simp [ha, ih h]
    · rw [if_neg ha] at h
      cases h

theorem free_cports_pass_some (svc_cport_id : Nat) (l : List gbsim_cport) (c : gbsim_cport)
    (h : free_cports_pass svc_cport_id l = some c) :
    c ∈ l ∧ c.hd_cport_id ≠ svc_cport_id ∧
      (l.erase c).filter (fun c => c.hd_cport_id = svc_cport_id)
        = l.filter (fun c => c.hd_cport_id = svc_cport_id) := by
  induction l with
  | nil => simp [free_cports_pass] at h
  | cons a t ih =>
    unfold free_cports_pass at h
    by_cases ha : a.hd_cport_id = svc_cport_id
    · rw [if_pos ha] at h
      obtain ⟨h1, h2, h3⟩ := ih h
      have hne : a ≠ c := by
        intro e
        rw [e] at ha
        exact h2 ha
      refine ⟨List.mem_cons_of_mem _ h1, h2, ?_⟩
      rw [List.erase_cons_tail (by simpa using hne)]
      simp [ha, h3]
    · rw [if_neg ha] at h
      cases h
      refine ⟨List.mem_cons_self _ _, ha, ?_⟩
      simp [ha]

theorem free_cports_again_eq (svc_cport_id : Nat) :
    ∀ (n : Nat) (st : gbsim), st.cports.length = n →
      free_cports_again svc_cport_id st =
        { st with cports := st.cports.filter (fun c => c.hd_cport_id = svc_cport_id) } := by
  intro n
  induction n using Nat.strong_induction_on with
  | _ n ih =>
    intro st hlen
    rw [free_cports_again]
    split
    · next hnone => rw [free_cports_pass_none _ _ hnone]
    · next cport hsome =>
      obtain ⟨h1, _, h3⟩ := free_cports_pass_some _ _ _ hsome
      have hl : (free_cport st cport).cports.length < n := by
        simp only [free_cport]
        rw [List.length_erase_of_mem h1, ← hlen]
        have : 0 < st.cports.length := List.length_pos_of_mem h1
        omega
      rw [ih _ hl (free_cport st cport) rfl]
      simp only [free_cport, h3]

theorem free_cports_cports (svc_cport_id first_hd_cport_id : Nat) (st : gbsim) :
    (free_cports svc_cport_id first_hd_cport_id st).cports
      = st.cports.filter (fun c => c.hd_cport_id = svc_cport_id) := by
  simp only [free_cports, reset_hd_cport_id]
  rw [free_cports_again_eq svc_cport_id _ st rfl]

theorem cport_scan_filter (cport_id : Nat) (l : List gbsim_cport) :
    cport_scan cport_id (l.filter (fun c => c.hd_cport_id = cport_id))
      = cport_scan cport_id l := by
  induction l with
  | nil => rfl
  | cons a t ih =>
    by_cases h : a.hd_cport_id = cport_id
    · simp [List.filter_cons, h, cport_scan]
    · simp [List.filter_cons, h, cport_scan, ih]

/-- C5, as stated, fails: with two entries allocated under the routing id
`GB_SVC_CPORT_ID` (here 0), `free_cports` keeps both, so an entry other than
the one that `cport_find` returns remains in the registry. -/
theorem free_cports_keeps_duplicate_svc :
    cport_find (free_cports 0 1 duplicate_gbsim) 0
      = some { node := 0, id := 1, hd_cport_id := 0, protocol := 0x14 } ∧
    ({ node := 1, id := 2, hd_cport_id := 0, protocol := 0x14 } : gbsim_cport)
      ∈ duplicate_gbsim.cports ∧
    ({ node := 1, id := 2, hd_cport_id := 0, protocol := 0x14 } : gbsim_cport)
      ∈ (free_cports 0 1 duplicate_gbsim).cports := by
  refine ⟨?_, by decide, ?_⟩
  · simp only [cport_find]
    rw [free_cports_cports]
    decide
  · rw [free_cports_cports]
    decide

/-- C5, amended: `free_cports` terminates and leaves exactly the entries whose
routing id is `GB_SVC_CPORT_ID`, in their order; so when the registry holds
such an entry, `cport_find(GB_SVC_CPORT_ID)` still succeeds and returns the
same entry as before, every entry that remains was there before and has that
routing id, and no entry with another routing id remains. -/
theorem free_cports_keeps_svc (svc_cport_id first_hd_cport_id : Nat) (st : gbsim)
    (hsvc : ∃ c ∈ st.cports, c.hd_cport_id = svc_cport_id) :
    (free_cports svc_cport_id first_hd_cport_id st).cports
      = st.cports.filter (fun c => c.hd_cport_id = svc_cport_id) ∧
    (∃ c, cport_find st svc_cport_id = some c ∧
      cport_find (free_cports svc_cport_id first_hd_cport_id st) svc_cport_id = some c) ∧
    (∀ c ∈ (free_cports svc_cport_id first_hd_cport_id st).cports,
      c ∈ st.cports ∧ c.hd_cport_id = svc_cport_id) ∧
    (∀ c ∈ st.cports, c.hd_cport_id ≠ svc_cport_id →
      c ∉ (free_cports svc_cport_id first_hd_cport_id st).cports) := by
  have hc := free_cports_cports svc_cport_id first_hd_cport_id st
  refine ⟨hc, ?_, ?_, ?_⟩
  · have hsame : cport_find (free_cports svc_cport_id first_hd_cport_id st) svc_cport_id
        = cport_find st svc_cport_id := by
      simp only [cport_find]
      rw [hc, cport_scan_filter]
    cases hf : cport_find st svc_cport_id with
    | none =>
      obtain ⟨c, hmem, hid⟩ := hsvc
      exact absurd hid ((cport_scan_none _ _).mp hf c hmem)
    | some c => exact ⟨c, rfl, by rw [hsame, hf]⟩
  · intro c hmem
    rw [hc, List.mem_filter] at hmem
    exact ⟨hmem.1, by simpa using hmem.2⟩
  · intro c _ hne hmem
    rw [hc, List.mem_filter] at hmem
    exact hne (by simpa using hmem.2)

/-- C5 (amended) on a registry with the SVC entry (routing id 0) and the GPIO
entry `0x10`: only the SVC entry is left. -/
theorem free_cports_keeps_svc_witness :
    (free_cports 0 1
      (registry_run (gbsim_init (fun _ => 8))
        [.allocate 0 0 0x14, .allocate 1 0x10 0x02])).cports
      = [{ node := 0, id := 0, hd_cport_id := 0, protocol := 0x14 }] :=
  (free_cports_keeps_svc 0 1
    (registry_run (gbsim_init (fun _ => 8)) [.allocate 0 0 0x14, .allocate 1 0x10 0x02])
    (by decide)).1.trans (by decide)

/-! ## Responses, return values and sizes -/

theorem load8_lt (buf : List Nat) (off : Nat) (h : ∀ b ∈ buf, b < 256) :
    load8 buf off < 256 := by
  simp only [load8, List.getD_eq_getElem?_getD]
  cases hb : buf[off]? with
  | none => simp
  | some b => exact h b (List.getElem?_mem hb)

theorem load16_lt (be : Bool) (buf : List Nat) (off : Nat) (h : ∀ b ∈ buf, b < 256) :
    load16 be buf off < 65536 := by
  have h0 := load8_lt buf off h
  have h1 := load8_lt buf (off + 1) h
  cases be <;> simp only [load16] <;> simp <;> omega

theorem send_msg_to_ap_written (be : Bool) (to_ap : uplink) (op : List Nat)
    (hd_cport_id message_size id type result : Nat) :
    (send_msg_to_ap be to_ap op hd_cport_id message_size id type result).to_ap.written
      = to_ap.written ++
        [{ count := message_size,
           bytes := (stamp_header be op hd_cport_id message_size id type result).take
             message_size }] := by
  unfold send_msg_to_ap
  simp only [write]
  split <;> rfl

/-- C6: for every inbound header `oph` and every result, `send_response`
stamps the outgoing header with the `operation_id` of `oph` unchanged and with
the `type` of `oph` or-ed with the response flag: bit 7 set, low seven bits
unchanged. -/
theorem send_response_header (be : Bool) (to_ap : uplink) (op : List Nat)
    (hd_cport_id message_size : Nat) (oph : List Nat) (result : Nat)
    (hop : sizeof_hdr ≤ op.length) (hoph : ∀ b ∈ oph, b < 256) :
    hdr_operation_id be (send_response be to_ap op hd_cport_id message_size oph result).op
      = hdr_operation_id be oph ∧
    hdr_type (send_response be to_ap op hd_cport_id message_size oph result).op
      = hdr_type oph ||| OP_RESPONSE ∧
    (hdr_type (send_response be to_ap op hd_cport_id message_size oph result).op).testBit 7
      = true ∧
    hdr_type (send_response be to_ap op hd_cport_id message_size oph result).op % 128
      = hdr_type oph % 128 := by
  have hid : hdr_operation_id be oph < 65536 := load16_lt be oph _ hoph
  have hty : hdr_type oph ||| OP_RESPONSE < 256 := or_response_lt _ (load8_lt oph _ hoph)
  have e1 : hdr_type (send_response be to_ap op hd_cport_id message_size oph result).op
      = hdr_type oph ||| OP_RESPONSE := by
    simp only [send_response]
    rw [send_msg_to_ap_op, stamp_header_type _ _ _ _ _ _ _ hop]
    simp only [u8]
    omega
  refine ⟨?_, e1, ?_, ?_⟩
  · simp only [send_response]
    rw [send_msg_to_ap_op, stamp_header_operation_id _ _ _ _ _ _ _ hop]
    omega
  · rw [e1]; exact or_response_bit _
  · rw [e1]; exact or_response_low _

/-- C6 at the request of the spec: `operation_id = 7`, `type = 0x02` gives
`operation_id = 7`, `type = 0x82` (little-endian host). -/
theorem send_response_header_witness :
    hdr_operation_id false
      (send_response false example_uplink (List.replicate 8 0) 0x10 8
        [8, 0, 7, 0, 0x02, 0, 0, 0] 0).op = 7 ∧
    hdr_type
      (send_response false example_uplink (List.replicate 8 0) 0x10 8
        [8, 0, 7, 0, 0x02, 0, 0, 0] 0).op = 0x82 :=
  let h := send_response_header false example_uplink (List.replicate 8 0) 0x10 8
    [8, 0, 7, 0, 0x02, 0, 0, 0] 0 (by decide) (by decide)
  ⟨h.1.trans (by decide), h.2.1.trans (by decide)⟩

/-- C9, as stated, fails: when the write succeeds and reports 8 bytes written,
`send_msg_to_ap` returns 0, not the number of bytes written. -/
theorem send_msg_to_ap_returns_zero :
    (write example_uplink
      (stamp_header false (List.replicate 8 0) 0x10 8 7 0x81 0) 8).1 = 8 ∧
    (send_msg_to_ap false example_uplink (List.replicate 8 0) 0x10 8 7 0x81 0).ret = 0 := by
  decide

/-- C9, amended: `send_msg_to_ap` performs exactly one write, of the message
buffer with the message size as count; it returns 0 when the write succeeds
(whatever number of bytes the write reports), and the negative value that the
write returned, as an `int`, when it fails. -/
theorem send_msg_to_ap_ret (be : Bool) (to_ap : uplink) (op : List Nat)
    (hd_cport_id message_size id type result : Nat) :
    (send_msg_to_ap be to_ap op hd_cport_id message_size id type result).to_ap.written
      = to_ap.written ++
        [{ count := message_size,
           bytes := (stamp_header be op hd_cport_id message_size id type result).take
             message_size }] ∧
    (send_msg_to_ap be to_ap op hd_cport_id message_size id type result).to_ap.written.length
      = to_ap.written.length + 1 ∧
    (0 ≤ to_ap.ret to_ap.written.length →
      (send_msg_to_ap be to_ap op hd_cport_id message_size id type result).ret = 0) ∧
    (to_ap.ret to_ap.written.length < 0 → -2147483648 ≤ to_ap.ret to_ap.written.length →
      (send_msg_to_ap be to_ap op hd_cport_id message_size id type result).ret
        = to_ap.ret to_ap.written.length) := by
  have hw := send_msg_to_ap_written be to_ap op hd_cport_id message_size id type result
  refine ⟨hw, by rw [hw]; simp, ?_, ?_⟩
  · intro h
    unfold send_msg_to_ap
    simp only [write]
    rw [if_neg (by omega)]
  · intro h hmin
    unfold send_msg_to_ap
    simp only [write]
    rw [if_pos h]
    simp only [to_int]
    omega

/-- C10: for a 16-bit `message_size`, the `size` field that `send_msg_to_ap`
stamps, read as a little-endian `u16` (and equally converted by the host with
`le16toh`), equals `message_size`, and the one write to the uplink is asked for
exactly `message_size` bytes, taken from the start of the message buffer. -/
theorem send_msg_to_ap_size (be : Bool) (to_ap : uplink) (op : List Nat)
    (hd_cport_id message_size id type result : Nat)
    (hop : sizeof_hdr ≤ op.length) (hsize : message_size < 65536) :
    read_le16 (send_msg_to_ap be to_ap op hd_cport_id message_size id type result).op off_size
      = message_size ∧
    le16toh be
        (hdr_size be (send_msg_to_ap be to_ap op hd_cport_id message_size id type result).op)
      = message_size ∧
    ∃ w : write_call,
      (send_msg_to_ap be to_ap op hd_cport_id message_size id type result).to_ap.written
        = to_ap.written ++ [w] ∧
      w.count = message_size ∧
      w.bytes = (send_msg_to_ap be to_ap op hd_cport_id message_size id type result).op.take
        message_size ∧
      (message_size ≤ op.length → w.bytes.length = message_size) := by
  have hle := stamp_header_size be op hd_cport_id message_size id type result hop
  rw [Nat.mod_eq_of_lt hsize] at hle
  rw [send_msg_to_ap_op]
  refine ⟨hle, ?_, _, send_msg_to_ap_written _ _ _ _ _ _ _ _, rfl, rfl, ?_⟩
  · rw [stamp_header_hdr_size _ _ _ _ _ _ _ hop, Nat.mod_eq_of_lt hsize]
  · intro h
    simp only [List.length_take, length_stamp_header]
    omega

/-- C10 at a frame of 8 bytes: the size field reads 8 and 8 bytes are handed to
the write. -/
theorem send_msg_to_ap_size_witness :
    read_le16
      (send_msg_to_ap false example_uplink (List.replicate 8 0) 0x10 8 7 0x81 0).op off_size
      = 8 :=
  (send_msg_to_ap_size false example_uplink (List.replicate 8 0) 0x10 8 7 0x81 0
    (by decide) (by decide)).1

/-! ## Unknown protocols -/

theorem handler_for_none (P : greybus_protocols) (protocol : Int)
    (h : ∀ k ∈ known_protocols P, protocol ≠ k) : handler_for P protocol = none := by
  simp only [known_protocols, List.mem_cons, List.mem_singleton, forall_eq_or_imp,
    forall_eq, List.not_mem_nil, false_imp_iff, implies_true, and_true] at h
  obtain ⟨h1, h2, h3, h4, h5, h6, h7, h8, h9, h10, h11, h12, h13⟩ := h
  unfold handler_for
  rw [if_neg h1, if_neg h2, if_neg h3, if_neg h4, if_neg h5, if_neg h6, if_neg h7,
    if_neg h8, if_neg h9, if_neg h10, if_neg h11, if_neg h12, if_neg h13]

/-- C11: for a registry entry whose protocol is none of the thirteen known
kinds, `cport_recv_handler` calls no protocol handler, returns `-EINVAL`, which
is negative and not zero, and leaves the receive and the transmit buffer (and
the registry and the uplink) as they are; it reports that no handler was
found. -/
theorem cport_recv_handler_unknown_protocol (P : greybus_protocols) (H : handlers)
    (cport : gbsim_cport) (st : gbsim) (rbuf : List Nat) (rsize : Nat) (tbuf : List Nat)
    (tsize : Nat) (hunknown : ∀ k ∈ known_protocols P, cport.protocol ≠ k) :
    (cport_recv_handler P H cport st rbuf rsize tbuf tsize).calls = [] ∧
    (cport_recv_handler P H cport st rbuf rsize tbuf tsize).ret = -EINVAL ∧
    (cport_recv_handler P H cport st rbuf rsize tbuf tsize).ret < 0 ∧
    (cport_recv_handler P H cport st rbuf rsize tbuf tsize).ret ≠ 0 ∧
    (cport_recv_handler P H cport st rbuf rsize tbuf tsize).rbuf = rbuf ∧
    (cport_recv_handler P H cport st rbuf rsize tbuf tsize).tbuf = tbuf ∧
    (cport_recv_handler P H cport st rbuf rsize tbuf tsize).st.cports = st.cports ∧
    (cport_recv_handler P H cport st rbuf rsize tbuf tsize).st.to_ap.written
      = st.to_ap.written ∧
    (cport_recv_handler P H cport st rbuf rsize tbuf tsize).st.errors
      = st.errors ++ [.handler_not_found cport.id] := by
  rw [cport_recv_handler_eq, handler_for_none P cport.protocol hunknown]
  refine ⟨rfl, rfl, ?_, ?_, rfl, rfl, rfl, rfl, rfl⟩
  · simp [EINVAL]
  · simp [EINVAL]

/-- C11 at an entry with protocol id `0x7f`, with handlers that would scribble
on the buffers if they were called: no call, `-22`, buffers as before. -/
theorem cport_recv_handler_unknown_protocol_witness :
    (cport_recv_handler greybus_ids failing_handlers
      { node := 0, id := 3, hd_cport_id := 0x20, protocol := 0x7f } example_gbsim
      [8, 0, 7, 0, 1, 0, 0, 0] 8 [0, 0, 0, 0, 0, 0, 0, 0] 8).calls = [] ∧
    (cport_recv_handler greybus_ids failing_handlers
      { node := 0, id := 3, hd_cport_id := 0x20, protocol := 0x7f } example_gbsim
      [8, 0, 7, 0, 1, 0, 0, 0] 8 [0, 0, 0, 0, 0, 0, 0, 0] 8).ret = -22 ∧
    (cport_recv_handler greybus_ids failing_handlers
      { node := 0, id := 3, hd_cport_id := 0x20, protocol := 0x7f } example_gbsim
      [8, 0, 7, 0, 1, 0, 0, 0] 8 [0, 0, 0, 0, 0, 0, 0, 0] 8).rbuf
      = [8, 0, 7, 0, 1, 0, 0, 0] :=
  let h := cport_recv_handler_unknown_protocol greybus_ids failing_handlers
    { node := 0, id := 3, hd_cport_id := 0x20, protocol := 0x7f } example_gbsim
    [8, 0, 7, 0, 1, 0, 0, 0] 8 [0, 0, 0, 0, 0, 0, 0, 0] 8 (by decide)
  ⟨h.1, h.2.1, h.2.2.2.2.1⟩

/-! ## The receive loop as a whole -/

theorem recv_iteration_error (P : greybus_protocols) (H : handlers) (errno : Nat)
    (ts : thread_state) :
    recv_iteration P H (.error errno) ts =
      { ts with
        st := { ts.st with errors := ts.st.errors ++ [.receive_error (-1)] },
        returned := true } := by
  unfold recv_iteration
  simp only [read]
  rw [if_pos (by decide)]

theorem recv_thread_error (P : greybus_protocols) (H : handlers) (errno : Nat)
    (rest : List read_event) (ts : thread_state) :
    recv_thread P H (.error errno :: rest) ts = recv_iteration P H (.error errno) ts := by
  rw [recv_thread]
  simp only [recv_iteration_error]
  rfl

theorem recv_thread_frames (P : greybus_protocols) (H : handlers) (frames : List (List Nat)) :
    ∀ (tail : List read_event) (ts : thread_state),
      recv_thread P H (frames.map .frame ++ tail) ts
        = recv_thread P H tail (recv_frames P H frames ts) := by
  induction frames with
  | nil => intro tail ts; rfl
  | cons bytes more ih =>
    intro tail ts
    simp only [List.map_cons, List.cons_append, recv_frames, List.foldl_cons]
    rw [recv_thread_frame, ih]
    rfl

theorem read_events_split (events : List read_event) :
    (∃ frames : List (List Nat), events = frames.map .frame) ∨
    (∃ (frames : List (List Nat)) (errno : Nat) (rest : List read_event),
      events = frames.map .frame ++ .error errno :: rest) := by
  induction events with
  | nil => exact Or.inl ⟨[], rfl⟩
  | cons ev more ih =>
    cases ev with
    | error errno => exact Or.inr ⟨[], errno, more, rfl⟩
    | frame bytes =>
      rcases ih with ⟨frames, h⟩ | ⟨frames, errno, rest, h⟩
      · exact Or.inl ⟨bytes :: frames, by rw [h]; rfl⟩
      · exact Or.inr ⟨bytes :: frames, errno, rest, by rw [h]; rfl⟩

theorem recv_handler_short (P : greybus_protocols) (H : handlers) (st : gbsim)
    (rbuf : List Nat) (rsize : Nat) (tbuf : List Nat) (tsize : Nat)
    (hsize : rsize < sizeof_hdr) :
    recv_handler P H st rbuf rsize tbuf tsize =
      { rbuf := rbuf, tbuf := tbuf,
        st := { st with errors := st.errors ++ [.short_message] }, calls := [] } := by
  unfold recv_handler
  rw [if_pos hsize]

theorem recv_frames_snoc (P : greybus_protocols) (H : handlers) (pre : List (List Nat))
    (bytes : List Nat) (ts : thread_state) :
    recv_frames P H (pre ++ [bytes]) ts
      = recv_iteration P H (.frame bytes) (recv_frames P H pre ts) := by
  simp only [recv_frames, List.foldl_append, List.foldl_cons, List.foldl_nil]

/-- C12: a `read` returns a negative value exactly when it fails.  The
iteration for a successful read hands the frame to `recv_handler`: the buffer
that `read` filled, the number of bytes read as size, the transmit buffer and
the state as the earlier iterations left them; it takes over the state that
`recv_handler` leaves, appends its handler calls after the earlier ones,
clears both buffers and never ends the loop, whatever `recv_handler` meets
(short message, unknown cport, unknown protocol) and whatever status the
handler returns.  The frames of a run are handled one after the other, each
from the state the earlier ones left.  So every sequence of read results is
either all frames, and then the loop handles each of them in order and is
still running, or it is a run of frames followed by a first failed read, and
then the loop handles exactly those frames in order, reports the failure and
returns: the result, and the handler calls in particular, do not depend on
what comes after. -/
theorem recv_thread_stops_at_first_failed_read (P : greybus_protocols) (H : handlers)
    (events : List read_event) (ts : thread_state) :
    (∀ (bytes buf : List Nat) (count : Nat),
      0 ≤ (read (.frame bytes) buf count).1 ∧
      (read (.frame bytes) buf count).1 = min bytes.length count ∧
      (read (.frame bytes) buf count).2
        = bytes.take (min bytes.length count) ++ buf.drop (min bytes.length count)) ∧
    (∀ (errno : Nat) (buf : List Nat) (count : Nat), (read (.error errno) buf count).1 < 0) ∧
    (∀ (bytes : List Nat) (ts0 : thread_state),
      recv_iteration P H (.frame bytes) ts0 =
        { st := (recv_handler P H ts0.st
              (read (.frame bytes) ts0.cport_rbuf ES1_MSG_SIZE).2
              (read (.frame bytes) ts0.cport_rbuf ES1_MSG_SIZE).1.toNat
              ts0.cport_tbuf ES1_MSG_SIZE).st,
          cport_rbuf := zero_buf,
          cport_tbuf := zero_buf,
          calls := ts0.calls ++ (recv_handler P H ts0.st
              (read (.frame bytes) ts0.cport_rbuf ES1_MSG_SIZE).2
              (read (.frame bytes) ts0.cport_rbuf ES1_MSG_SIZE).1.toNat
              ts0.cport_tbuf ES1_MSG_SIZE).calls,
          returned := false }) ∧
    (∀ (bytes : List Nat) (ts0 : thread_state),
      (recv_iteration P H (.frame bytes) ts0).returned = false) ∧
    (recv_frames P H [] ts = ts ∧
      ∀ (pre : List (List Nat)) (bytes : List Nat),
        recv_frames P H (pre ++ [bytes]) ts
          = recv_iteration P H (.frame bytes) (recv_frames P H pre ts)) ∧
    ((∃ frames : List (List Nat), events = frames.map .frame ∧
        recv_thread P H events ts = recv_frames P H frames ts) ∨
     (∃ (frames : List (List Nat)) (errno : Nat) (rest : List read_event),
        events = frames.map .frame ++ .error errno :: rest ∧
        recv_thread P H events ts =
          { recv_frames P H frames ts with
            st := { (recv_frames P H frames ts).st with
              errors := (recv_frames P H frames ts).st.errors ++ [.receive_error (-1)] },
            returned := true } ∧
        (recv_thread P H events ts).returned = true ∧
        (recv_thread P H events ts).calls = (recv_frames P H frames ts).calls ∧
        (recv_thread P H events ts).st.cports = (recv_frames P H frames ts).st.cports ∧
        (recv_thread P H events ts).st.to_ap.written
          = (recv_frames P H frames ts).st.to_ap.written)) := by
  refine ⟨?_, ?_, ?_, ?_, ⟨rfl, fun pre bytes => recv_frames_snoc P H pre bytes ts⟩, ?_⟩
  · intro bytes buf count
    exact ⟨by simp only [read]; exact Int.ofNat_nonneg _, rfl, rfl⟩
  · intro errno buf count
    simp only [read]
    decide
  · intro bytes ts0
    rw [recv_iteration_frame]
    simp only [read, Int.toNat_ofNat]
  · intro bytes ts0
    rw [recv_iteration_frame]
  · rcases read_events_split events with ⟨frames, h⟩ | ⟨frames, errno, rest, h⟩
    · refine Or.inl ⟨frames, h, ?_⟩
      have := recv_thread_frames P H frames [] ts
      rw [List.append_nil] at this
      rw [h, this]
      rfl
    · have hrun : recv_thread P H events ts =
          { recv_frames P H frames ts with
            st := { (recv_frames P H frames ts).st with
              errors := (recv_frames P H frames ts).st.errors ++ [.receive_error (-1)] },
            returned := true } := by
        rw [h, recv_thread_frames, recv_thread_error, recv_iteration_error]
      refine Or.inr ⟨frames, errno, rest, h, hrun, ?_, ?_, ?_, ?_⟩ <;> rw [hrun]

/-- C12 on a short frame, a frame for the registered GPIO cport whose handler
reports a failure, a failed read and one more GPIO frame: the loop makes the
one handler call for the second frame, records the short message and the read
failure, returns, and the frame after the failed read is not handled. -/
theorem recv_thread_stops_at_first_failed_read_example :
    (recv_thread greybus_ids failing_handlers
      [.frame [3, 0, 1], .frame [8, 0, 7, 0, 1, 0, 0x10, 0], .error 5,
       .frame [8, 0, 9, 0, 1, 0, 0x10, 0]]
      (thread_init example_gbsim)).calls.map
        (fun call => (call.fn, call.cport_id, call.hd_cport_id, call.rsize))
      = [(.gpio_handler, 1, 0x10, 8)] ∧
    (recv_thread greybus_ids failing_handlers
      [.frame [3, 0, 1], .frame [8, 0, 7, 0, 1, 0, 0x10, 0], .error 5,
       .frame [8, 0, 9, 0, 1, 0, 0x10, 0]]
      (thread_init example_gbsim)).st.errors
      = [.short_message, .receive_error (-1)] ∧
    (recv_thread greybus_ids failing_handlers
      [.frame [3, 0, 1], .frame [8, 0, 7, 0, 1, 0, 0x10, 0], .error 5,
       .frame [8, 0, 9, 0, 1, 0, 0x10, 0]]
      (thread_init example_gbsim)).returned = true := by
  have hfn : handler_for greybus_ids
      ({ node := 0, id := 1, hd_cport_id := 0x10, protocol := 0x02 } : gbsim_cport).protocol
      = some .gpio_handler := by decide
  have hrun : recv_thread greybus_ids failing_handlers
      [.frame [3, 0, 1], .frame [8, 0, 7, 0, 1, 0, 0x10, 0], .error 5,
       .frame [8, 0, 9, 0, 1, 0, 0x10, 0]]
      (thread_init example_gbsim) =
      { st := { example_gbsim with errors := [.short_message, .receive_error (-1)] },
        cport_rbuf := zero_buf, cport_tbuf := zero_buf,
        calls := [{ fn := .gpio_handler, cport_id := 1, hd_cport_id := 0x10,
                    rbuf := store8 (store8
                      ([8, 0, 7, 0, 1, 0, 0x10, 0].take 8 ++ zero_buf.drop 8) off_pad 0)
                      (off_pad + 1) 0,
                    rsize := 8, tbuf := zero_buf, tsize := ES1_MSG_SIZE }],
        returned := true } := by
    rw [recv_thread_frame, recv_iteration_frame,
      recv_handler_short _ _ _ _ _ _ _ (by decide)]
    rw [recv_thread_frame, recv_iteration_frame,
      recv_handler_found greybus_ids failing_handlers _ _ _ _ _
        { node := 0, id := 1, hd_cport_id := 0x10, protocol := 0x02 }
        (by decide) (by rw [recv_hd_cport_id_read_frame _ _ (by decide)]; decide)]
    rw [recv_thread_error, recv_iteration_error]
    simp only [cport_recv_handler_calls, cport_recv_handler_eq, hfn]
    rfl
  rw [hrun]
  exact ⟨rfl, rfl, rfl⟩

/-! ## The message buffers across iterations -/

theorem length_zero_buf : zero_buf.length = ES1_MSG_SIZE := by
  simp [zero_buf]

theorem load8_zero_buf (off : Nat) : load8 zero_buf off = 0 := by
  simp only [load8, zero_buf, List.getD_eq_getElem?_getD, List.getElem?_replicate]
  split <;> rfl

theorem length_read_frame (bytes : List Nat) :
    (bytes.take (min bytes.length ES1_MSG_SIZE) ++
      zero_buf.drop (min bytes.length ES1_MSG_SIZE)).length = ES1_MSG_SIZE := by
  rw [List.length_append, List.length_take, List.length_drop, length_zero_buf]
  omega

theorem load8_read_frame_past (bytes : List Nat) (off : Nat)
    (h : min bytes.length ES1_MSG_SIZE ≤ off) :
    load8 (bytes.take (min bytes.length ES1_MSG_SIZE) ++
      zero_buf.drop (min bytes.length ES1_MSG_SIZE)) off = 0 := by
  have hl : (bytes.take (min bytes.length ES1_MSG_SIZE)).length
      = min bytes.length ES1_MSG_SIZE := by
    rw [List.length_take]; omega
  have hz := load8_zero_buf off
  simp only [load8, List.getD_eq_getElem?_getD] at hz ⊢
  rw [List.getElem?_append_right (by omega), hl, List.getElem?_drop]
  have : min bytes.length ES1_MSG_SIZE + (off - min bytes.length ES1_MSG_SIZE) = off := by
    omega
  rw [this]
  exact hz

theorem recv_handler_calls_shape (P : greybus_protocols) (H : handlers) (st : gbsim)
    (rbuf : List Nat) (rsize : Nat) (tbuf : List Nat) (tsize : Nat) :
    ∀ call ∈ (recv_handler P H st rbuf rsize tbuf tsize).calls,
      sizeof_hdr ≤ rsize ∧
      call.rbuf = store8 (store8 rbuf off_pad 0) (off_pad + 1) 0 ∧
      call.rsize = rsize ∧ call.tbuf = tbuf ∧ call.tsize = tsize := by
  intro call hcall
  by_cases hs : rsize < sizeof_hdr
  · unfold recv_handler at hcall
    rw [if_pos hs] at hcall
    simp at hcall
  · have hs' : sizeof_hdr ≤ rsize := by omega
    cases hf : cport_find st (recv_hd_cport_id rbuf) with
    | none =>
      rw [recv_handler_unknown P H st rbuf rsize tbuf tsize hs' hf] at hcall
      simp at hcall
    | some cport =>
      rw [recv_handler_found P H st rbuf rsize tbuf tsize cport hs' hf] at hcall
      simp only [cport_recv_handler_calls] at hcall
      cases hfn : handler_for P cport.protocol with
      | none => simp [hfn] at hcall
      | some fn =>
        simp only [hfn, List.mem_singleton] at hcall
        subst hcall
        exact ⟨hs', rfl, rfl, rfl, rfl⟩

theorem recv_iteration_frame_no_residue (P : greybus_protocols) (H : handlers)
    (bytes : List Nat) (ts : thread_state)
    (hr : ts.cport_rbuf = zero_buf) (ht : ts.cport_tbuf = zero_buf) :
    ∃ new : List handler_call,
      (recv_iteration P H (.frame bytes) ts).calls = ts.calls ++ new ∧
      ∀ call ∈ new, no_residue call := by
  rw [recv_iteration_frame, hr, ht]
  refine ⟨_, rfl, ?_⟩
  intro call hcall
  obtain ⟨hs, hrb, hrs, htb, hts⟩ := recv_handler_calls_shape _ _ _ _ _ _ _ call hcall
  simp only [sizeof_hdr] at hs
  refine ⟨htb, hts, ?_, ?_, ?_⟩
  · rw [hrb, length_store8, length_store8, length_read_frame]
  · rw [hrs]; exact Nat.min_le_right _ _
  · intro off hoff
    rw [hrs] at hoff
    rw [hrb, load8_store8_other _ _ _ _ (by simp only [off_pad]; omega),
      load8_store8_other _ _ _ _ (by simp only [off_pad]; omega)]
    exact load8_read_frame_past bytes off hoff

theorem recv_frames_buffers (P : greybus_protocols) (H : handlers) (frames : List (List Nat)) :
    ∀ ts : thread_state, ts.cport_rbuf = zero_buf → ts.cport_tbuf = zero_buf →
      (recv_frames P H frames ts).cport_rbuf = zero_buf ∧
      (recv_frames P H frames ts).cport_tbuf = zero_buf := by
  induction frames with
  | nil => intro ts hr ht; exact ⟨hr, ht⟩
  | cons bytes more ih =>
    intro ts _ _
    simp only [recv_frames, List.foldl_cons]
    exact ih _ (by rw [recv_iteration_frame]) (by rw [recv_iteration_frame])

theorem recv_thread_no_residue (P : greybus_protocols) (H : handlers)
    (events : List read_event) :
    ∀ ts : thread_state, ts.cport_rbuf = zero_buf → ts.cport_tbuf = zero_buf →
      ∃ new : List handler_call,
        (recv_thread P H events ts).calls = ts.calls ++ new ∧
        ∀ call ∈ new, no_residue call := by
  induction events with
  | nil => intro ts _ _; exact ⟨[], by simp [recv_thread], by simp⟩
  | cons ev more ih =>
    intro ts hr ht
    cases ev with
    | error errno =>
      rw [recv_thread_error, recv_iteration_error]
      exact ⟨[], by simp, by simp⟩
    | frame bytes =>
      rw [recv_thread_frame]
      obtain ⟨new1, h1, c1⟩ := recv_iteration_frame_no_residue P H bytes ts hr ht
      obtain ⟨new2, h2, c2⟩ := ih (recv_iteration P H (.frame bytes) ts)
        (by rw [recv_iteration_frame]) (by rw [recv_iteration_frame])
      refine ⟨new1 ++ new2, ?_, ?_⟩
      · rw [h2, h1, List.append_assoc]
      · intro call hcall
        rcases List.mem_append.mp hcall with h | h
        · exact c1 call h
        · exact c2 call h

/-- C13: the iteration for a frame always ends with both static buffers
zeroed, on every path through `recv_handler` and whatever the handler wrote
into them.  So, when the buffers start zeroed, they are zeroed (2048 zero
bytes) at the start of every iteration, and for every sequence of read results
each handler call of the loop gets the zeroed transmit buffer with its full
size, and a receive buffer of full size in which every byte from the received
size on is zero: nothing of an earlier frame is left in either. -/
theorem recv_thread_buffers_zero (P : greybus_protocols) (H : handlers)
    (frames : List (List Nat)) (events : List read_event) (ts : thread_state)
    (hr : ts.cport_rbuf = zero_buf) (ht : ts.cport_tbuf = zero_buf) :
    (zero_buf.length = 2048 ∧ ∀ b ∈ zero_buf, b = 0) ∧
    (∀ (bytes : List Nat) (ts0 : thread_state),
      (recv_iteration P H (.frame bytes) ts0).cport_rbuf = zero_buf ∧
      (recv_iteration P H (.frame bytes) ts0).cport_tbuf = zero_buf) ∧
    ((recv_frames P H frames ts).cport_rbuf = zero_buf ∧
      (recv_frames P H frames ts).cport_tbuf = zero_buf) ∧
    ∃ new : List handler_call,
      (recv_thread P H events ts).calls = ts.calls ++ new ∧
      ∀ call ∈ new,
        call.tbuf = zero_buf ∧ call.tsize = ES1_MSG_SIZE ∧
        call.rbuf.length = ES1_MSG_SIZE ∧ call.rsize ≤ ES1_MSG_SIZE ∧
        ∀ off, call.rsize ≤ off → load8 call.rbuf off = 0 := by
  refine ⟨⟨length_zero_buf.trans rfl, ?_⟩, ?_, recv_frames_buffers P H frames ts hr ht, ?_⟩
  · intro b hb
    simp only [zero_buf] at hb
    exact (List.mem_replicate.mp hb).2
  · intro bytes ts0
    rw [recv_iteration_frame]
    exact ⟨rfl, rfl⟩
  · obtain ⟨new, h1, h2⟩ := recv_thread_no_residue P H events ts hr ht
    exact ⟨new, h1, fun call hcall => h2 call hcall⟩

/-- C13 after a frame for the registered GPIO cport whose handler scribbles on
both buffers: the next iteration starts with both buffers zeroed. -/
theorem recv_thread_buffers_zero_witness :
    (recv_frames greybus_ids failing_handlers [[8, 0, 7, 0, 1, 0, 0x10, 0]]
      (thread_init example_gbsim)).cport_rbuf = zero_buf ∧
    (recv_frames greybus_ids failing_handlers [[8, 0, 7, 0, 1, 0, 0x10, 0]]
      (thread_init example_gbsim)).cport_tbuf = zero_buf :=
  (recv_thread_buffers_zero greybus_ids failing_handlers [[8, 0, 7, 0, 1, 0, 0x10, 0]]
    [.frame [8, 0, 7, 0, 1, 0, 0x10, 0]] (thread_init example_gbsim) rfl rfl).2.2.1

end Gbsim
